import Mathlib

/-!
Verification development for the `sec-fetcher` repository (Python).

Shallow embedding: each Lean definition below translates one Python
function of the repository (module and function named in its doc
comment).  Python exceptions are modelled with `Except`, the filesystem
as a set of node paths (lists of components), HTTP traffic through
explicit oracles.  `Manifest` (module `secfetch/storage/manifest.py`,
not present in the source tree) is modelled from the spec, §4.9.

Python strings are modelled as lists of characters (`Str`), with the
relevant built-ins re-implemented by structural recursion so that every
definition evaluates on concrete inputs.  Modelling conventions:
* `str.strip()` and friends use Python's ASCII whitespace class
  (exotic Unicode whitespace is out of scope).
* `str.isdigit()` is "non-empty and all ASCII digits".
* `int(s)` is optional sign plus ASCII digits after stripping
  (Python's underscore separators and Unicode digits are out of scope;
  no input in the repository's domain exercises them).
* `str.split(sep)` and `str.replace(old, new)` are only used by the
  sources with single-character separators, and are modelled as such.
* Byte contents of downloaded files are not tracked, only the set of
  paths that exist on disk; this is enough for every claim considered.
-/

/-- Decidable equality for `Except`, for evaluating results on concrete
inputs. -/
instance {ε α : Type} [DecidableEq ε] [DecidableEq α] : DecidableEq (Except ε α) :=
  fun x y =>
    match x, y with
    | .ok a, .ok b =>
        if h : a = b then .isTrue (by rw [h]) else .isFalse (by simp [h])
    | .error a, .error b =>
        if h : a = b then .isTrue (by rw [h]) else .isFalse (by simp [h])
    | .ok _, .error _ => .isFalse (by simp)
    | .error _, .ok _ => .isFalse (by simp)

/-! ## Python strings over `List Char` -/

/-- A Python string, as its list of characters. -/
abbrev Str := List Char

/-- Character list of a Lean string literal. -/
def S (s : String) : Str := s.data

/-- Python's `str.isspace` character class (ASCII): space, tab, LF, CR,
vertical tab, form feed. -/
def pySpaceChar (c : Char) : Bool :=
  c == ' ' || c == '\t' || c == '\n' || c == '\r' ||
  c == Char.ofNat 11 || c == Char.ofNat 12

/-- An ASCII decimal digit. -/
def isDigitChar (c : Char) : Bool := 48 ≤ c.toNat && c.toNat ≤ 57

/-- The decimal digit character for `n < 10`. -/
def digitChar (n : Nat) : Char := Char.ofNat (48 + n)

/-- Python `s.strip()`. -/
def pyStrip (s : Str) : Str :=
  ((s.dropWhile pySpaceChar).reverse.dropWhile pySpaceChar).reverse

/-- Python `s.rstrip("\n")`: drop every trailing newline character. -/
def rstripNewline (s : Str) : Str :=
  (s.reverse.dropWhile (fun c => c == '\n')).reverse

/-- Python `s.startswith(p)`. -/
def strStartsWith (s p : Str) : Bool :=
  match p, s with
  | [], _ => true
  | _ :: _, [] => false
  | a :: as, b :: bs => a == b && strStartsWith bs as

/-- Python `s.endswith(p)`. -/
def strEndsWith (s p : Str) : Bool := strStartsWith s.reverse p.reverse

/-- Python `sub in s` (substring containment). -/
def strContains (s sub : Str) : Bool :=
  match s with
  | [] => sub.isEmpty
  | _ :: rest => strStartsWith s sub || strContains rest sub

/-- Python `s.split(sep)` for a single-character separator: keeps empty
pieces, always returns at least one piece. -/
def splitOnChar (sep : Char) : Str → List Str
  | [] => [[]]
  | a :: rest =>
      let r := splitOnChar sep rest
      if a == sep then [] :: r
      else
        match r with
        | [] => [[a]]
        | p :: ps => (a :: p) :: ps

/-- Python `s.replace(old, new)` for a single-character `old`. -/
def replaceChar (old : Char) (new : Str) (s : Str) : Str :=
  s.foldr (fun c acc => if c == old then new ++ acc else c :: acc) []

/-- ASCII lower-casing of one character. -/
def charLower (c : Char) : Char :=
  if 65 ≤ c.toNat && c.toNat ≤ 90 then Char.ofNat (c.toNat + 32) else c

/-- ASCII upper-casing of one character. -/
def charUpper (c : Char) : Char :=
  if 97 ≤ c.toNat && c.toNat ≤ 122 then Char.ofNat (c.toNat - 32) else c

/-- Python `s.lower()` (ASCII). -/
def strLower (s : Str) : Str := s.map charLower

/-- Python `s.upper()` (ASCII). -/
def strUpper (s : Str) : Str := s.map charUpper

/-- Python `s.isdigit()` restricted to ASCII digits. -/
def pyIsDigit (s : Str) : Bool := !s.isEmpty && s.all isDigitChar

/-- Numeric value of a digit string (used only under a `pyIsDigit` guard). -/
def digitsToNat (s : Str) : Nat :=
  s.foldl (fun acc c => acc * 10 + (c.toNat - 48)) 0

/-- Decimal rendering of a natural number (fuel-based, total). -/
def natDigitsAux : Nat → Nat → Str
  | 0, _ => []
  | fuel + 1, n =>
      if n < 10 then [digitChar n]
      else natDigitsAux fuel (n / 10) ++ [digitChar (n % 10)]

/-- Python `str(n)` for a natural number. -/
def natToStr (n : Nat) : Str := natDigitsAux (n + 1) n

/-- Python `str(i)` for an integer. -/
def intToStr (i : Int) : Str :=
  if i < 0 then '-' :: natToStr i.natAbs else natToStr i.natAbs

/-- Python `int(s)`: strip, optional sign, ASCII digits; `none` on failure. -/
def pyInt? (s : Str) : Option Int :=
  let t := pyStrip s
  let (sign, body) :=
    match t with
    | '-' :: rest => ((-1 : Int), rest)
    | '+' :: rest => ((1 : Int), rest)
    | _ => ((1 : Int), t)
  if pyIsDigit body then some (sign * (digitsToNat body : Int)) else none

/-- Python `s.zfill(w)`: left-pad with zeros to width `w`, keeping a leading
sign character. -/
def zfill (s : Str) (w : Nat) : Str :=
  if w ≤ s.length then s
  else
    match s with
    | '-' :: rest => '-' :: List.replicate (w - s.length) '0' ++ rest
    | '+' :: rest => '+' :: List.replicate (w - s.length) '0' ++ rest
    | _ => List.replicate (w - s.length) '0' ++ s

/-- Python `s.removesuffix(suf)`. -/
def removeSuffix (s suf : Str) : Str :=
  if !suf.isEmpty && strEndsWith s suf then s.take (s.length - suf.length) else s

/-- Python `re.sub(r"\s+", "", s)`: delete every whitespace character. -/
def dropWhitespace (s : Str) : Str := s.filter (fun c => !pySpaceChar c)

/-! ## Calendar dates (Python `datetime.date`) -/

/-- Python `datetime.date` value; `mkPyDate?` enforces the constructor
checks. -/
structure PyDate where
  year : Int
  month : Int
  day : Int
deriving DecidableEq, Repr

def isLeapYear (y : Int) : Bool := y % 4 == 0 && (y % 100 != 0 || y % 400 == 0)

def daysInMonth (y m : Int) : Int :=
  if m == 2 then (if isLeapYear y then 29 else 28)
  else if m == 4 || m == 6 || m == 9 || m == 11 then 30
  else 31

/-- `datetime.date(y, m, d)`: `none` when the constructor would raise. -/
def mkPyDate? (y m d : Int) : Option PyDate :=
  if 1 ≤ y && y ≤ 9999 && 1 ≤ m && m ≤ 12 && 1 ≤ d && d ≤ daysInMonth y m then
    some ⟨y, m, d⟩
  else none

/-- `date.isoformat()`: `YYYY-MM-DD` with zero padding. -/
def PyDate.iso (d : PyDate) : Str :=
  zfill (intToStr d.year) 4 ++ S "-" ++ zfill (intToStr d.month) 2 ++ S "-" ++
    zfill (intToStr d.day) 2

/-! ## `secfetch/index/master.py` -/

/-- `MasterIndexRow` (secfetch/index/master.py). -/
structure MasterIndexRow where
  cik : Str
  company_name : Str
  form_type : Str
  date_filed : PyDate
  filename : Str
deriving DecidableEq, Repr

/-- `Path(self.filename).name`: the basename of a `/`-separated path. -/
def pathBasename (s : Str) : Str :=
  ((splitOnChar '/' s).getLast? ).getD s

/-- `MasterIndexRow.accession`: basename minus a `.txt` then `.idx`
suffix. -/
def MasterIndexRow.accession (r : MasterIndexRow) : Str :=
  removeSuffix (removeSuffix (pathBasename r.filename) (S ".txt")) (S ".idx")

/-- `MasterIndexRow.accession_no_dash`. -/
def MasterIndexRow.accession_no_dash (r : MasterIndexRow) : Str :=
  replaceChar '-' [] r.accession

/-- The literal header recognised by the parser. -/
def masterHeader : Str := S "CIK|Company Name|Form Type|Date Filed|Filename"

/-- A line that begins (after `rstrip("\n")`) with the literal header. -/
def isHeaderLine (line : Str) : Bool := strStartsWith line masterHeader

/-- A dash-rule line: first non-space characters are `----`. -/
def isDashRule (line : Str) : Bool := strStartsWith (pyStrip line) (S "----")

/-- A blank line in data mode: `not line.strip()`. -/
def isBlankLine (line : Str) : Bool := (pyStrip line).isEmpty

/-- `date_filed` parsing in `parse_master_index`: split on `-`, exactly three
integer fields, then the `date()` constructor checks. -/
def parseDateFiled (s : Str) : Option PyDate :=
  match (splitOnChar '-' s).map pyInt? with
  | [some y, some m, some d] => mkPyDate? y m d
  | _ => none

/-- One data line of `parse_master_index`: split on `|` into exactly five
fields (`len(parts) != 5` raises), strip each, parse the date. -/
def parseMasterLine (line : Str) : Except Str MasterIndexRow :=
  let parts := splitOnChar '|' line
  if h : parts.length = 5 then
    let cik := parts.get ⟨0, by omega⟩
    let company := parts.get ⟨1, by omega⟩
    let form := parts.get ⟨2, by omega⟩
    let dateStr := parts.get ⟨3, by omega⟩
    let filename := parts.get ⟨4, by omega⟩
    match parseDateFiled dateStr with
    | some dt => .ok ⟨pyStrip cik, pyStrip company, pyStrip form, dt, pyStrip filename⟩
    | none => .error (S "Invalid date in master.idx row: " ++ dateStr)
  else .error (S "Unexpected master.idx row format: " ++ line)

/-- Loop of `parse_master_index` (secfetch/index/master.py): state
`(saw_header, in_data)` plus accumulated rows (in order).  The source's
`if not in_data: … continue` / data handling is written here as
`if inData then (data) else (pre-data)`. -/
def parseMasterLoop (sawHeader inData : Bool) (acc : List MasterIndexRow) :
    List Str → Except Str (List MasterIndexRow)
  | [] =>
      if acc.isEmpty then .error (S "No rows parsed from master.idx (header not found?)")
      else .ok acc
  | raw :: rest =>
      if inData then
        if isBlankLine (rstripNewline raw) then parseMasterLoop sawHeader true acc rest
        else
          match parseMasterLine (rstripNewline raw) with
          | .ok row => parseMasterLoop sawHeader true (acc ++ [row]) rest
          | .error e => .error e
      else
        if isHeaderLine (rstripNewline raw) then parseMasterLoop true false acc rest
        else if sawHeader && isDashRule (rstripNewline raw) then
          parseMasterLoop true true acc rest
        else parseMasterLoop sawHeader false acc rest

/-- `parse_master_index` (secfetch/index/master.py). -/
def parse_master_index (lines : List Str) : Except Str (List MasterIndexRow) :=
  parseMasterLoop false false [] lines

/-- `iter_unique_accessions` loop with its `seen` accumulator. -/
def iterUniqueAux (seen : List Str) : List MasterIndexRow → List MasterIndexRow
  | [] => []
  | r :: rs =>
      if r.accession ∈ seen then iterUniqueAux seen rs
      else r :: iterUniqueAux (r.accession :: seen) rs

/-- `iter_unique_accessions` (secfetch/index/master.py). -/
def iter_unique_accessions (rows : List MasterIndexRow) : List MasterIndexRow :=
  iterUniqueAux [] rows

/-! ## `secfetch/index/filter.py` -/

/-- `FilingFilter` (secfetch/index/filter.py). -/
structure FilingFilter where
  forms : List Str
  include_amended : Bool
deriving Repr

/-- `FilingFilter.match` (secfetch/index/filter.py). -/
def FilingFilter.matches (flt : FilingFilter) (row : MasterIndexRow) : Bool :=
  if row.form_type ∉ flt.forms then false
  else if !flt.include_amended && strContains row.form_type (S "/A") then false
  else true

/-- `filter_master_rows` (secfetch/index/filter.py). -/
def filter_master_rows (rows : List MasterIndexRow) (flt : FilingFilter) :
    List MasterIndexRow :=
  (iter_unique_accessions rows).filter (fun r => flt.matches r)

/-! ## `secfetch/entities.py`

Python's optional single-value-or-sequence parameters are modelled as
plain lists: `None` and a present-but-empty sequence both contribute no
values, which is exactly how the Python code treats them; `int` inputs
are modelled by their decimal rendering (what `str(value)` produces).
The ticker → CIK-set mapping loaded from the packaged CSV is a
parameter (an association list with `dict.get` lookup semantics).  Sets
of strings are modelled as deduplicating insertion-ordered lists. -/

/-- Insert into a modelled string set (no duplicates). -/
def setInsert (xs : List Str) (x : Str) : List Str :=
  if x ∈ xs then xs else xs ++ [x]

/-- Union of a modelled set with a list of new members (`set.update`). -/
def setUnion (xs : List Str) (ys : List Str) : List Str :=
  ys.foldl setInsert xs

/-- `_normalize_cik` (secfetch/entities.py): strip; empty stays empty; a pure
digit string is parsed as an integer and re-rendered zero-padded to 10; any
other string is zero-padded to 10 as-is. -/
def _normalize_cik (value : Str) : Str :=
  let s := pyStrip value
  if s.isEmpty then []
  else if pyIsDigit s then zfill (natToStr (digitsToNat s)) 10
  else zfill s 10

/-- `dict.get(key, default)` on an association list whose keys are unique;
first binding wins, as for a Python dict built by successive updates. -/
def assocGet (m : List (Str × List Str)) (k : Str) : Option (List Str) :=
  (m.find? (fun p => p.1 == k)).map Prod.snd

/-- The entity-ID loop body of `resolve_cik_filter`: normalize and add when
the normalization is non-empty. -/
def cikFoldStep (acc : List Str) (v : Str) : List Str :=
  let norm := _normalize_cik v
  if !norm.isEmpty then setInsert acc norm else acc

/-- The ticker loop body of `resolve_cik_filter`: strip and upper-case the
ticker, skip blanks, and union in its mapped CIK set (empty when the ticker
is unmapped). -/
def tickerFoldStep (mapping : List (Str × List Str)) (acc : List Str)
    (t : Str) : List Str :=
  let key := strUpper (pyStrip t)
  if key.isEmpty then acc
  else setUnion acc ((assocGet mapping key).getD [])

/-- `resolve_cik_filter` (secfetch/entities.py).  `mapping` stands for
`load_ticker_to_cik_map()`.  Returns `none` for an empty union
("no filter"). -/
def resolve_cik_filter (mapping : List (Str × List Str))
    (cik : List Str) (ticker : List Str) : Option (List Str) :=
  let values : List Str := cik.foldl cikFoldStep []
  let values : List Str := ticker.foldl (tickerFoldStep mapping) values
  if values.isEmpty then none else some values

/-- The per-row entity check in `FilingDownloader.download_quarter`
(secfetch/downloader.py lines 119-120): with no filter every row passes,
otherwise the zero-padded CIK must be a member. -/
def applyCikFilter (cikSet : Option (List Str)) (rows : List MasterIndexRow) :
    List MasterIndexRow :=
  match cikSet with
  | none => rows
  | some s => rows.filter (fun r => zfill r.cik 10 ∈ s)

/-! ## `secfetch/edgar.py` -/

/-- `accession_no_dash` (secfetch/edgar.py). -/
def accession_no_dash (accession : Str) : Str := replaceChar '-' [] accession

/-- `str(int(cik))` as used in URL construction; `none` when `int()`
raises. -/
def cikUrlComponent (cik : Str) : Option Str := (pyInt? cik).map intToStr

/-- `filing_folder_url` (secfetch/edgar.py); `none` when `int(cik)`
raises. -/
def filing_folder_url (cik accession : Str) : Option Str :=
  (cikUrlComponent cik).map
    (fun c => S "https://www.sec.gov/Archives/edgar/data/" ++ c ++ S "/"
      ++ accession_no_dash accession ++ S "/")

/-- `filing_index_json_url` (secfetch/edgar.py). -/
def filing_index_json_url (cik accession : Str) : Option Str :=
  (filing_folder_url cik accession).map (fun u => u ++ S "index.json")

/-! ## JSON values and `_extract_files_from_index_json` -/

/-- JSON values as produced by `response.json()`; object keys are unique. -/
inductive JVal where
  | null : JVal
  | bool (b : Bool) : JVal
  | num (n : Int) : JVal
  | str (s : Str) : JVal
  | arr (xs : List JVal) : JVal
  | obj (kvs : List (Str × JVal)) : JVal
deriving Repr

/-- `payload.get(key)` on a JSON object association list. -/
def jget (kvs : List (Str × JVal)) (k : Str) : Option JVal :=
  (kvs.find? (fun p => p.1 == k)).map Prod.snd

/-- One listed file: `{"name": ..., "href": base + name}`. -/
structure FileEntry where
  name : Str
  href : Str
deriving DecidableEq, Repr

/-- The item loop of `_extract_files_from_index_json`: non-dict items and
items without a non-empty string `name` are skipped. -/
def extractItems (base : Str) : List JVal → List FileEntry
  | [] => []
  | it :: rest =>
      match it with
      | .obj kvs =>
          match jget kvs "name".data with
          | some (.str n) =>
              if n.isEmpty then extractItems base rest
              else ⟨n, base ++ n⟩ :: extractItems base rest
          | _ => extractItems base rest
      | _ => extractItems base rest

/-- `_extract_files_from_index_json` (secfetch/downloader.py): the payload
must be an object whose `directory` member is an object whose `item` member
is an array; the items themselves are filtered by `extractItems`. -/
def _extract_files_from_index_json (payload : JVal) (baseFolderUrl : Str) :
    Except Str (List FileEntry) :=
  match payload with
  | .obj kvs =>
      match jget kvs "directory".data with
      | some (.obj dkvs) =>
          match jget dkvs "item".data with
          | some (.arr items) => .ok (extractItems baseFolderUrl items)
          | _ => .error (S "index.json missing directory.item array")
      | _ => .error (S "index.json missing directory object")
  | _ => .error (S "index.json payload was not an object")

/-- `_match_file_types` (secfetch/downloader.py). -/
def _match_file_types (name : Str) (fileTypes : List Str) : Bool :=
  fileTypes.any (fun ext => strEndsWith (strLower name) ext)

/-! ## `secfetch/storage/layout.py` and filing paths

Filesystem paths are lists of components.  Appending a Python string to
a `Path` splits it on `/` exactly as `Path.__truediv__` does (the repo
never appends empty or absolute parts). -/

/-- `Path / s`: append a string, splitting it on `/`. -/
def pjoin (p : List Str) (s : Str) : List Str := p ++ splitOnChar '/' s

/-- `form_dir_name` (secfetch/storage/layout.py). -/
def form_dir_name (formType : Str) : Str :=
  dropWhitespace (replaceChar '/' (S "_") (pyStrip formType))

/-- `filing_dir` (secfetch/storage/layout.py): under the group label when one
is set (Python truthiness: `None` and `""` both fall through), else the
zero-padded CIK. -/
def filing_dir (dataDir : List Str) (formType cik accession : Str)
    (groupLabel : Option Str) : List Str :=
  let base := pjoin (pjoin dataDir (S "filings")) (form_dir_name formType)
  match groupLabel with
  | some g =>
      if !g.isEmpty then pjoin (pjoin base g) accession
      else pjoin (pjoin base (zfill cik 10)) accession
  | none => pjoin (pjoin base (zfill cik 10)) accession

/-- `_filing_tar_path` (secfetch/downloader.py): note the raw form type is
used here, not `form_dir_name`. -/
def _filing_tar_path (dataDir : List Str) (formType cik accession : Str) :
    List Str :=
  pjoin (pjoin (pjoin (pjoin dataDir (S "filings_tar")) formType) (zfill cik 10))
    (accession ++ S ".tar")

/-- `Path.with_name`: replace the final component. -/
def withName (p : List Str) (name : Str) : List Str := p.dropLast ++ [name]

/-- Split a file name into `(stem, suffix)` with `Path.suffix` semantics: the
suffix starts at the final dot, except when there is no dot or the only dot
is the leading character (hidden-file rule). -/
def splitSuffix (name : Str) : Str × Str :=
  let extRev := name.reverse.takeWhile (fun c => c != '.')
  if extRev.length = name.length then (name, [])
  else
    let stemLen := name.length - extRev.length - 1
    if stemLen = 0 then (name, [])
    else (name.take stemLen, '.' :: extRev.reverse)

/-- `Path.with_suffix`: replace the final suffix of the last component. -/
def withSuffix (p : List Str) (suf : Str) : List Str :=
  match p.getLast? with
  | none => p
  | some name => p.dropLast ++ [(splitSuffix name).1 ++ suf]

/-! ## Filesystem model

The filesystem is a list of node paths.  A path *exists* when it is a
recorded node or an ancestor of one (directories exist through their
contents); `mkdir` records the directory itself so empty staging
directories exist too.  `rmtree` removes a whole subtree, `unlink` one
node, `replace` renames a subtree.  These primitives are total: the
repository's claims concern control flow around them, and every
exception modelled below enters through the network oracle or the
explicit validation logic. -/

/-- Path prefix test on component lists. -/
def isPre : List Str → List Str → Bool
  | [], _ => true
  | _ :: _, [] => false
  | a :: as, b :: bs => a == b && isPre as bs

/-- Filesystem: the list of recorded node paths. -/
def FS := List (List Str)

instance : Membership (List Str) FS := inferInstanceAs (Membership _ (List _))

instance : DecidableEq FS := inferInstanceAs (DecidableEq (List (List Str)))

/-- `path.exists()`: the path is a recorded node or an ancestor of one. -/
def fsExists (fs : FS) (p : List Str) : Bool :=
  (fs : List (List Str)).any (fun q => isPre p q)

/-- `mkdir(parents=True, exist_ok=True)`: record the directory node. -/
def fsMkdir (fs : FS) (p : List Str) : FS := (p :: fs : List (List Str))

/-- `write_bytes` / creating a file: record the file node. -/
def fsWrite (fs : FS) (p : List Str) : FS := (p :: fs : List (List Str))

/-- `shutil.rmtree(p)`: drop the node and everything below it. -/
def fsRmtree (fs : FS) (p : List Str) : FS :=
  (fs : List (List Str)).filter (fun q => !isPre p q)

/-- `Path.unlink()`: drop exactly this node (only ever applied to files). -/
def fsUnlink (fs : FS) (p : List Str) : FS :=
  (fs : List (List Str)).filter (fun q => q ≠ p)

/-- `Path.replace(dst)`: rename the subtree rooted at `src` onto `dst`. -/
def fsReplace (fs : FS) (src dst : List Str) : FS :=
  (fs : List (List Str)).map
    (fun q => if isPre src q then dst ++ q.drop src.length else q)

/-! ## Manifest

Modelled from the spec: module `secfetch/storage/manifest.py` is not in
the source tree (only its importers are).  Spec §4.9: a persistent
key-value map from accession to `ManifestEntry`; `get` looks up by
accession, `upsert` replaces in full, `save_atomic` persists once per
run (the on-disk write is modelled in `download_quarter`). -/

/-- `ManifestEntry` (spec §3): accession is the primary key; `strategy`
records the output mode of the commit (`"index"` or `"index_tar"`). -/
structure ManifestEntry where
  accession : Str
  form_type : Str
  cik : Str
  date_filed : Str
  strategy : Str
deriving DecidableEq, Repr

/-- Modelled from the spec: the in-memory manifest map, keyed by
accession. -/
def Manifest := List (Str × ManifestEntry)

instance : DecidableEq Manifest :=
  inferInstanceAs (DecidableEq (List (Str × ManifestEntry)))

/-- Modelled from the spec: `Manifest.get`. -/
def Manifest.get (m : Manifest) (accession : Str) : Option ManifestEntry :=
  ((m : List (Str × ManifestEntry)).find? (fun p => p.1 == accession)).map Prod.snd

/-- Modelled from the spec: `Manifest.upsert` (replace in full, keyed by the
entry's accession). -/
def Manifest.upsert (m : Manifest) (e : ManifestEntry) : Manifest :=
  ((e.accession, e) ::
    (m : List (Str × ManifestEntry)).filter (fun p => p.1 ≠ e.accession)
    : List (Str × ManifestEntry))

/-! ## `FilingDownloader._download_one` (secfetch/downloader.py) -/

/-- Output mode: `output_format` of the downloader (`"files"` | `"tar"`). -/
inductive OutputMode where
  | files : OutputMode
  | tar : OutputMode
deriving DecidableEq, Repr

/-- The downloader configuration relevant to a single filing task. -/
structure DlConfig where
  dataDir : List Str
  fileTypes : List Str
  outputMode : OutputMode
  groupLabel : Option Str

/-- Network oracle for one filing task: the folder `index.json` payload and
the per-URL byte fetches, each able to raise (`.error` carries `str(e)`). -/
structure NetOracle where
  getJson : Str → Except Str JVal
  getBytes : Str → Except Str Unit

/-- `DownloadResult` (secfetch/downloader.py). -/
structure DownloadResult where
  accession : Str
  cik : Str
  form_type : Str
  date_filed : PyDate
  status : Str
  error : Option Str := none
  output_dir : Option (List Str) := none
deriving DecidableEq, Repr

/-- Outcome of one filing task: the result, the manifest and filesystem
after the task, and the URLs requested (in order). -/
structure OneOut where
  result : DownloadResult
  man : Manifest
  fs : FS
  requests : List Str

/-- The file-download loop of `_download_one`: fetch each selected file and
write it under the staging directory; an exception aborts with the
filesystem and request trace as they stood. -/
def fetchFiles (net : NetOracle) (tmpDir : List Str) :
    List FileEntry → FS → List Str →
      Except (Str × FS × List Str) (FS × List Str)
  | [], fs, reqs => .ok (fs, reqs)
  | f :: rest, fs, reqs =>
      match net.getBytes f.href with
      | .error e => .error (e, fs, reqs ++ [f.href])
      | .ok _ =>
          fetchFiles net tmpDir rest (fsWrite fs (pjoin tmpDir f.name))
            (reqs ++ [f.href])

/-- The stage reset of `_download_one`: remove leftover staging paths and
create the staging directory. -/
def stageReset (fs : FS) (tmpDir tmpTar : List Str) : FS :=
  let fs1 := if fsExists fs tmpDir then fsRmtree fs tmpDir else fs
  let fs2 := if fsExists fs1 tmpTar then fsUnlink fs1 tmpTar else fs1
  fsMkdir fs2 tmpDir

/-- The `files`-mode commit of `_download_one`: ensure the parent, replace
any previous artifact, rename the staging directory into place. -/
def commitFiles (fs : FS) (outDir tmpDir : List Str) : FS :=
  let fs1 := fsMkdir fs outDir.dropLast
  let fs2 := if fsExists fs1 outDir then fsRmtree fs1 outDir else fs1
  fsReplace fs2 tmpDir outDir

/-- The `tar`-mode commit of `_download_one`: write the staging tar, replace
any previous artifact, rename it into place, drop the staging directory. -/
def commitTar (fs : FS) (tarPath tmpTar tmpDir : List Str) : FS :=
  let fs1 := fsMkdir fs tarPath.dropLast
  let fs2 := fsWrite fs1 tmpTar
  let fs3 := if fsExists fs2 tarPath then fsUnlink fs2 tarPath else fs2
  let fs4 := fsReplace fs3 tmpTar tarPath
  fsRmtree fs4 tmpDir

/-- The body of the `try:` block in `_download_one`, from stage reset to
manifest upsert.  Success returns the committed output path, the new
manifest and filesystem, and the request trace; failure returns `str(e)`
with the filesystem and trace at the raise point. -/
def downloadBody (cfg : DlConfig) (man : Manifest) (fs : FS) (net : NetOracle)
    (row : MasterIndexRow) (outDir tarPath tmpDir tmpTar : List Str) :
    Except (Str × FS × List Str) (List Str × Manifest × FS × List Str) :=
  let accession := row.accession
  let fs := stageReset fs tmpDir tmpTar
  match filing_index_json_url row.cik accession,
      filing_folder_url row.cik accession with
  | some indexUrl, some baseUrl =>
      match net.getJson indexUrl with
      | .error e => .error (e, fs, [indexUrl])
      | .ok listing =>
          match _extract_files_from_index_json listing baseUrl with
          | .error e => .error (e, fs, [indexUrl])
          | .ok files =>
              let selected :=
                files.filter (fun f => _match_file_types f.name cfg.fileTypes)
              if selected.isEmpty then
                .error (S "No files matched file_types for accession " ++ accession,
                  fs, [indexUrl])
              else
                match fetchFiles net tmpDir selected fs [indexUrl] with
                | .error t => .error t
                | .ok (fs2, reqs) =>
                    match cfg.outputMode with
                    | .files =>
                        .ok (outDir,
                          man.upsert ⟨accession, row.form_type, zfill row.cik 10,
                            row.date_filed.iso, S "index"⟩,
                          commitFiles fs2 outDir tmpDir, reqs)
                    | .tar =>
                        .ok (tarPath,
                          man.upsert ⟨accession, row.form_type, zfill row.cik 10,
                            row.date_filed.iso, S "index_tar"⟩,
                          commitTar fs2 tarPath tmpTar tmpDir, reqs)
  | _, _ =>
      -- `int(cik)` raised inside the try block while building the URL.
      .error (S "invalid literal for int() with base 10: " ++ row.cik, fs, [])

/-- `out_dir` of `_download_one` for one filing. -/
def outDirOf (cfg : DlConfig) (row : MasterIndexRow) : List Str :=
  filing_dir cfg.dataDir row.form_type row.cik row.accession cfg.groupLabel

/-- `tar_path` of `_download_one` for one filing. -/
def tarPathOf (cfg : DlConfig) (row : MasterIndexRow) : List Str :=
  _filing_tar_path cfg.dataDir row.form_type row.cik row.accession

/-- `tmp_dir = out_dir.with_name(out_dir.name + ".tmp")`. -/
def tmpDirOf (cfg : DlConfig) (row : MasterIndexRow) : List Str :=
  withName (outDirOf cfg row)
    ((((outDirOf cfg row).getLast? ).getD []) ++ S ".tmp")

/-- `tmp_tar = tar_path.with_suffix(".tmp")`. -/
def tmpTarOf (cfg : DlConfig) (row : MasterIndexRow) : List Str :=
  withSuffix (tarPathOf cfg row) (S ".tmp")

/-- The idempotence check of `_download_one`: a manifest entry whose strategy
matches the current output mode and whose final artifact exists on disk. -/
def skipCheck (cfg : DlConfig) (man : Manifest) (fs : FS)
    (row : MasterIndexRow) : Bool :=
  match man.get row.accession with
  | none => false
  | some entry =>
      match cfg.outputMode with
      | .files => entry.strategy == S "index" && fsExists fs (outDirOf cfg row)
      | .tar => entry.strategy == S "index_tar" && fsExists fs (tarPathOf cfg row)

/-- The `except` handler of `_download_one`: best-effort removal of the two
staging paths. -/
def cleanupStaging (cfg : DlConfig) (row : MasterIndexRow) (fsE : FS) : FS :=
  let fsC := if fsExists fsE (tmpDirOf cfg row) then fsRmtree fsE (tmpDirOf cfg row)
    else fsE
  if fsExists fsC (tmpTarOf cfg row) then fsUnlink fsC (tmpTarOf cfg row) else fsC

/-- `FilingDownloader._download_one` (secfetch/downloader.py): idempotence
check, then the staged fetch-and-commit body, with the exception handler
that cleans the staging paths and reports `status="error"`. -/
def downloadOne (cfg : DlConfig) (man : Manifest) (fs : FS) (net : NetOracle)
    (row : MasterIndexRow) : OneOut :=
  if skipCheck cfg man fs row then
    match cfg.outputMode with
    | .files =>
        ⟨⟨row.accession, row.cik, row.form_type, row.date_filed, S "skipped",
          none, none⟩, man, fs, []⟩
    | .tar =>
        ⟨⟨row.accession, row.cik, row.form_type, row.date_filed, S "skipped",
          none, some (tarPathOf cfg row)⟩, man, fs, []⟩
  else
    match downloadBody cfg man fs net row (outDirOf cfg row) (tarPathOf cfg row)
        (tmpDirOf cfg row) (tmpTarOf cfg row) with
    | .ok (outputPath, man2, fs2, reqs) =>
        ⟨⟨row.accession, row.cik, row.form_type, row.date_filed, S "downloaded",
          none, some outputPath⟩, man2, fs2, reqs⟩
    | .error (e, fsE, reqs) =>
        ⟨⟨row.accession, row.cik, row.form_type, row.date_filed, S "error",
          some e, none⟩, man, cleanupStaging cfg row fsE, reqs⟩

/-! ## `FilingDownloader.download_quarter` (secfetch/downloader.py)

The per-filing tasks run under a semaphore, but `asyncio.gather`
preserves input order and the tasks' filesystem effects live in
disjoint accession-keyed subtrees; the fold below threads the shared
state through the tasks in row order.  The master-index cache file's
text is supplied by the quarter oracle both when it is fetched and when
it is already cached (file contents are not stored in `FS`). -/

/-- `master_index_cache_path` (secfetch/index/master.py). -/
def master_index_cache_path (dataDir : List Str) (year quarter : Nat) :
    List Str :=
  pjoin (pjoin (pjoin (pjoin (pjoin dataDir (S "index")) (S "master"))
    (natToStr year)) (S "QTR" ++ natToStr quarter)) (S "master.idx")

/-- Oracle for one quarter run: the master index download outcome and text,
and the per-row network oracle for the filing tasks. -/
structure QuarterOracle where
  masterFetch : Except Str Unit
  masterLines : List Str
  perRow : MasterIndexRow → NetOracle

/-- `download_master_index` (secfetch/index/master.py), `force=False`: reuse
the cache when present, else fetch and write it.  A network failure
propagates out of `download_quarter` (no result list is returned). -/
def download_master_index (fs : FS) (net : QuarterOracle)
    (dataDir : List Str) (year quarter : Nat) :
    Except Str (FS × List Str) :=
  let cachePath := master_index_cache_path dataDir year quarter
  if fsExists fs cachePath then .ok (fs, cachePath)
  else
    let fs := fsMkdir fs cachePath.dropLast
    match net.masterFetch with
    | .error e => .error e
    | .ok _ => .ok (fsWrite fs cachePath, cachePath)

/-- The task fold of `download_quarter`: run `_download_one` on each matched
row in order, threading manifest and filesystem. -/
def runTasks (cfg : DlConfig) (net : QuarterOracle) :
    List MasterIndexRow → Manifest → FS → List DownloadResult × Manifest × FS
  | [], man, fs => ([], man, fs)
  | row :: rest, man, fs =>
      let out := downloadOne cfg man fs (net.perRow row) row
      let (results, man', fs') := runTasks cfg net rest out.man out.fs
      (out.result :: results, man', fs')

/-- `FilingDownloader.download_quarter` (secfetch/downloader.py): fetch and
parse the master index, filter, run the tasks, save the manifest, and apply
the quarter cache policy (remove the cached quarter directory only when no
result has status `error`).  `cikSet` is `self.cik_set`, `manifestPath` the
manifest file location. -/
def download_quarter (cfg : DlConfig) (flt : FilingFilter)
    (cikSet : Option (List Str)) (manifestPath : List Str)
    (net : QuarterOracle) (year quarter : Nat) (man : Manifest) (fs : FS) :
    Except Str (List DownloadResult × Manifest × FS) :=
  match download_master_index fs net cfg.dataDir year quarter with
  | .error e => .error e
  | .ok (fs, masterPath) =>
      match parse_master_index net.masterLines with
      | .error e => .error e
      | .ok rows =>
          let matched := applyCikFilter cikSet (filter_master_rows rows flt)
          let (results, man', fs') := runTasks cfg net matched man fs
          let fs' := fsWrite fs' manifestPath
          let fs' :=
            if results.all (fun r => r.status ≠ S "error") then
              if fsExists fs' masterPath.dropLast then fsRmtree fs' masterPath.dropLast
              else fs'
            else fs'
          .ok (results, man', fs')

/-- The quarter-cache cleanup at the end of `download_quarter_tar`
(secfetch/api.py lines 586-597, datamule provider): performed whenever a
master path is present, regardless of the results. -/
def datamuleQuarterCleanup (masterPath : Option (List Str))
    (_results : List DownloadResult) (fs : FS) : FS :=
  match masterPath with
  | none => fs
  | some mp => if fsExists fs mp.dropLast then fsRmtree fs mp.dropLast else fs

/-! ## `SecClient._request` (secfetch/network/client.py)

Attempt-by-attempt model of the retry loop.  The oracle maps each
attempt number to the outcome of issuing the GET; the random draws of
`random.random()` are a second oracle (their range is irrelevant to the
statements proved).  Sleep durations are exact rationals.

`raise_for_status` is modelled as raising `HTTPStatusError` unless the
status is a 2xx success, matching httpx (redirects are already followed
by the transport, so the responses seen here are final).  The 429 and
5xx branches of the source run before `raise_for_status` and never
reach it. -/

/-- Outcome of issuing one GET: a response (status plus optional
`Retry-After` header) or a transport/timeout exception. -/
inductive AttemptOutcome where
  | resp (status : Nat) (retryAfter : Option Str) : AttemptOutcome
  | exc (msg : Str) : AttemptOutcome

/-- The recorded error kinds of the retry loop. -/
inductive ReqError where
  | rateLimited (url : Str) : ReqError
  | serverError (status : Nat) : ReqError
  | httpStatusError (status : Nat) : ReqError
  | transportError (msg : Str) : ReqError
  | runtimeNoException : ReqError
deriving DecidableEq, Repr

/-- Result of `_request`: the returned status or the raised error, the number
of attempts actually made, and the sleeps performed (in order). -/
structure ReqTrace where
  result : Except ReqError Nat
  attempts : Nat
  sleeps : List ℚ
deriving Repr

/-- Prepend a sleep to a trace (a `continue` after `asyncio.sleep`). -/
def addSleep (s : ℚ) (t : ReqTrace) : ReqTrace :=
  { t with sleeps := s :: t.sleeps }

/-- Sleep before retrying a 429: `Retry-After` when the header is a non-empty
digit string, else `min(60, 2**attempt + random())`. -/
def sleep429 (attempt : Nat) (retryAfter : Option Str) (r : ℚ) : ℚ :=
  match retryAfter with
  | some h =>
      if pyIsDigit h then (digitsToNat h : ℚ)
      else min 60 ((2 ^ attempt : ℚ) + r)
  | none => min 60 ((2 ^ attempt : ℚ) + r)

/-- Sleep before retrying a 5xx: `min(30, (2**attempt) * 0.5 + random())`. -/
def sleep5xx (attempt : Nat) (r : ℚ) : ℚ :=
  min 30 ((2 ^ attempt : ℚ) * (1 / 2) + r)

/-- Sleep before retrying a caught exception (timeout, transport error, or
the `HTTPStatusError` raised by `raise_for_status`):
`min(10, attempt * 0.5 + random())`. -/
def sleepCaught (attempt : Nat) (r : ℚ) : ℚ :=
  min 10 ((attempt : ℚ) * (1 / 2) + r)

/-- The retry loop of `SecClient._request`, counting down the remaining
iterations of `range(1, max_retries + 1)`; `attempt` is the current loop
variable and the `Option ReqError` argument the `last_exc` slot. -/
def requestLoop (url : Str) (oracle : Nat → AttemptOutcome) (rand : Nat → ℚ) :
    Nat → Nat → Option ReqError → ReqTrace
  | 0, attempt, lastExc =>
      ⟨.error (lastExc.getD .runtimeNoException), attempt - 1, []⟩
  | rem + 1, attempt, _lastExc =>
      match oracle attempt with
      | .exc msg =>
          addSleep (sleepCaught attempt (rand attempt))
            (requestLoop url oracle rand rem (attempt + 1)
              (some (.transportError msg)))
      | .resp status retryAfter =>
          if status = 429 then
            addSleep (sleep429 attempt retryAfter (rand attempt))
              (requestLoop url oracle rand rem (attempt + 1)
                (some (.rateLimited url)))
          else if 500 ≤ status ∧ status < 600 then
            addSleep (sleep5xx attempt (rand attempt))
              (requestLoop url oracle rand rem (attempt + 1)
                (some (.serverError status)))
          else if 200 ≤ status ∧ status < 300 then
            ⟨.ok status, attempt, []⟩
          else
            -- `raise_for_status` raised; caught with the transport errors.
            addSleep (sleepCaught attempt (rand attempt))
              (requestLoop url oracle rand rem (attempt + 1)
                (some (.httpStatusError status)))

/-- `SecClient._request` with retry budget `maxRetries` (config default 6). -/
def secRequest (maxRetries : Nat) (url : Str) (oracle : Nat → AttemptOutcome)
    (rand : Nat → ℚ) : ReqTrace :=
  requestLoop url oracle rand maxRetries 1 none

/-! ## Concrete fixtures used by witnesses -/

/-- A representative master-index row (the row used in the repository's own
tests). -/
def demoRow : MasterIndexRow :=
  ⟨S "1000045", S "TEST CORP", S "10-Q", ⟨2024, 1, 2⟩,
    S "edgar/data/1000045/000100004524000001/0001000045-24-000001.txt"⟩

/-- A folder listing with one XML file and one text file. -/
def demoListing : JVal :=
  .obj [(S "directory", .obj [(S "item",
    .arr [.obj [(S "name", .str (S "doc.xml"))],
          .obj [(S "name", .str (S "readme.txt"))]])])]

/-- A network oracle that serves `demoListing` and succeeds on every byte
fetch. -/
def demoNet : NetOracle := ⟨fun _ => .ok demoListing, fun _ => .ok ()⟩

/-- Files-mode configuration used by witnesses. -/
def cfgFiles : DlConfig := ⟨[S "data"], [S ".xml"], .files, none⟩

/-- Tar-mode configuration used by witnesses. -/
def cfgTar : DlConfig := ⟨[S "data"], [S ".xml"], .tar, none⟩

/-- Whether a JSON value is an object (`isinstance(x, dict)`). -/
def JVal.isObj : JVal → Bool
  | .obj _ => true
  | _ => false

/-- A folder listing whose `item` array mixes malformed entries (an object
with no `name`, a bare string, an empty `name`) with one valid file. -/
def badListing : JVal :=
  .obj [(S "directory", .obj [(S "item",
    .arr [.obj [], .str (S "x"), .obj [(S "name", .str (S ""))],
          .obj [(S "name", .str (S "doc.xml"))]])])]

/-- Master-index text of one valid quarter (header, dash rule, one row). -/
def demoIdxLines : List Str :=
  [S "CIK|Company Name|Form Type|Date Filed|Filename",
   S "--------------------------------",
   S "1000045|TEST CORP|10-Q|2024-01-02|edgar/data/1000045/000100004524000001/0001000045-24-000001.txt"]

/-- The filter used by witness runs. -/
def demoFlt : FilingFilter := ⟨[S "10-Q"], false⟩

/-- The manifest file location used by witness runs. -/
def demoManifestPath : List Str := [S "data", S "_state", S "manifest.json"]

/-- Quarter oracle of a fully successful run. -/
def qoOK : QuarterOracle := ⟨.ok (), demoIdxLines, fun _ => demoNet⟩

/-- Quarter oracle whose per-filing folder listing request fails. -/
def qoBad : QuarterOracle :=
  ⟨.ok (), demoIdxLines, fun _ => ⟨fun _ => .error (S "net down"), fun _ => .ok ()⟩⟩

/-- Results of the successful demo quarter run. -/
def c4ResultsOK : List DownloadResult :=
  [⟨S "0001000045-24-000001", S "1000045", S "10-Q", ⟨2024, 1, 2⟩,
    S "downloaded", none,
    some [S "data", S "filings", S "10-Q", S "0001000045",
      S "0001000045-24-000001"]⟩]

/-- Manifest of the successful demo quarter run. -/
def c4ManOK : Manifest :=
  ([(S "0001000045-24-000001",
    ⟨S "0001000045-24-000001", S "10-Q", S "0001000045", S "2024-01-02",
      S "index"⟩)] : List (Str × ManifestEntry))

/-- Filesystem of the successful demo quarter run. -/
def c4FsOK : FS :=
  ([[S "data", S "_state", S "manifest.json"],
    [S "data", S "filings", S "10-Q", S "0001000045"],
    [S "data", S "filings", S "10-Q", S "0001000045",
      S "0001000045-24-000001", S "doc.xml"],
    [S "data", S "filings", S "10-Q", S "0001000045",
      S "0001000045-24-000001"]] : List (List Str))

/-- Results of the failing demo quarter run. -/
def c4ResultsErr : List DownloadResult :=
  [⟨S "0001000045-24-000001", S "1000045", S "10-Q", ⟨2024, 1, 2⟩,
    S "error", some (S "net down"), none⟩]

/-- Filesystem of the failing demo quarter run (cache retained). -/
def c4FsErr : FS :=
  ([[S "data", S "_state", S "manifest.json"],
    [S "data", S "index", S "master", S "2024", S "QTR1", S "master.idx"],
    [S "data", S "index", S "master", S "2024", S "QTR1"]] : List (List Str))

/-- The cache path of the C4 counterexample. -/
def c4CachePath : List Str := master_index_cache_path [S "data"] 2024 1

/-- A manifest holding a files-mode entry for the demo row. -/
def c2Man : Manifest :=
  ([(S "0001000045-24-000001",
    ⟨S "0001000045-24-000001", S "10-Q", S "0001000045", S "2024-01-02",
      S "index"⟩)] : List (Str × ManifestEntry))

/-- A filesystem holding the demo row's files-mode artifact directory. -/
def c2Fs : FS :=
  ([[S "data", S "filings", S "10-Q", S "0001000045",
    S "0001000045-24-000001"]] : List (List Str))

/-- Output path of the demo body run from an empty state. -/
def c2BodyPath : List Str :=
  [S "data", S "filings", S "10-Q", S "0001000045", S "0001000045-24-000001"]

/-- Filesystem after the demo body run from an empty state. -/
def c2BodyFs : FS :=
  ([[S "data", S "filings", S "10-Q", S "0001000045"],
    [S "data", S "filings", S "10-Q", S "0001000045",
      S "0001000045-24-000001", S "doc.xml"],
    [S "data", S "filings", S "10-Q", S "0001000045",
      S "0001000045-24-000001"]] : List (List Str))

/-- Request trace of the demo body run from an empty state. -/
def c2BodyReqs : List Str :=
  [S "https://www.sec.gov/Archives/edgar/data/1000045/000100004524000001/index.json",
   S "https://www.sec.gov/Archives/edgar/data/1000045/000100004524000001/doc.xml"]

/-- The oracle of the C3 counterexample: a 404 on the first attempt, then
200. -/
def oracle404then200 : Nat → AttemptOutcome :=
  fun a => if a == 1 then .resp 404 none else .resp 200 none

/-- The oracle of the C5 counterexample: 429 with `Retry-After: 0` first,
then 200. -/
def oracle429zero : Nat → AttemptOutcome :=
  fun a => if a == 1 then .resp 429 (some (S "0")) else .resp 200 none

/-- A network oracle whose JSON fetch fails. -/
def c1NetErr : NetOracle := ⟨fun _ => .error (S "boom"), fun _ => .ok ()⟩

/-- Filesystem at the raise point of the failing demo run: only the staging
directory created by the stage reset. -/
def c1FsE : FS :=
  ([[S "data", S "filings", S "10-Q", S "0001000045",
    S "0001000045-24-000001.tmp"]] : List (List Str))

/-- Request trace of the failing demo run. -/
def c1Rq : List Str :=
  [S "https://www.sec.gov/Archives/edgar/data/1000045/000100004524000001/index.json"]

/-! # Theorems

Helper lemmas come first; the claim theorems (`C1` … `C10`) follow, each
with its witness or counterexample. -/

/-! ## Set-model lemmas for `resolve_cik_filter` -/

theorem mem_setInsert {xs : List Str} {x y : Str} :
    y ∈ setInsert xs x ↔ y ∈ xs ∨ y = x := by
  unfold setInsert
  by_cases h : x ∈ xs
  · rw [if_pos h]
    constructor
    · exact Or.inl
    · rintro (hy | rfl)
      · exact hy
      · exact h
  · rw [if_neg h]
    simp

theorem mem_setUnion (ys : List Str) :
    ∀ (xs : List Str) (y : Str), y ∈ setUnion xs ys ↔ y ∈ xs ∨ y ∈ ys := by
  induction ys with
  | nil => intro xs y; simp [setUnion]
  | cons z zs ih =>
      intro xs y
      have h1 : setUnion xs (z :: zs) = setUnion (setInsert xs z) zs := rfl
      rw [h1, ih, mem_setInsert, List.mem_cons]
      tauto

theorem mem_cikFold (cik : List Str) :
    ∀ (acc : List Str) (y : Str),
      y ∈ cik.foldl cikFoldStep acc ↔
        y ∈ acc ∨ ∃ c ∈ cik, _normalize_cik c = y ∧ y ≠ [] := by
  induction cik with
  | nil => intro acc y; simp
  | cons v vs ih =>
      intro acc y
      rw [List.foldl_cons, ih]
      cases hn : _normalize_cik v with
      | nil =>
          rw [show cikFoldStep acc v = acc by simp [cikFoldStep, hn]]
          constructor
          · rintro (hy | ⟨c, hc, hcy, hne⟩)
            · exact Or.inl hy
            · exact Or.inr ⟨c, List.mem_cons_of_mem _ hc, hcy, hne⟩
          · rintro (hy | ⟨c, hc, hcy, hne⟩)
            · exact Or.inl hy
            · rcases List.mem_cons.mp hc with rfl | hc2
              · exact absurd (hcy.symm.trans hn) hne
              · exact Or.inr ⟨c, hc2, hcy, hne⟩
      | cons a b =>
          rw [show cikFoldStep acc v = setInsert acc (_normalize_cik v) by
            simp [cikFoldStep, hn]]
          rw [mem_setInsert]
          constructor
          · rintro ((hy | rfl) | ⟨c, hc, hcy, hne⟩)
            · exact Or.inl hy
            · exact Or.inr ⟨v, List.mem_cons_self _ _, rfl, by rw [hn]; simp⟩
            · exact Or.inr ⟨c, List.mem_cons_of_mem _ hc, hcy, hne⟩
          · rintro (hy | ⟨c, hc, hcy, hne⟩)
            · exact Or.inl (Or.inl hy)
            · rcases List.mem_cons.mp hc with rfl | hc2
              · exact Or.inl (Or.inr hcy.symm)
              · exact Or.inr ⟨c, hc2, hcy, hne⟩

theorem mem_tickerFold (mapping : List (Str × List Str)) (ticker : List Str) :
    ∀ (acc : List Str) (y : Str),
      y ∈ ticker.foldl (tickerFoldStep mapping) acc ↔
        y ∈ acc ∨ ∃ t ∈ ticker, strUpper (pyStrip t) ≠ [] ∧
          y ∈ (assocGet mapping (strUpper (pyStrip t))).getD [] := by
  induction ticker with
  | nil => intro acc y; simp
  | cons t ts ih =>
      intro acc y
      rw [List.foldl_cons, ih]
      cases hk : strUpper (pyStrip t) with
      | nil =>
          rw [show tickerFoldStep mapping acc t = acc by
            simp [tickerFoldStep, hk]]
          constructor
          · rintro (hy | ⟨u, hu, hne, hmem⟩)
            · exact Or.inl hy
            · exact Or.inr ⟨u, List.mem_cons_of_mem _ hu, hne, hmem⟩
          · rintro (hy | ⟨u, hu, hne, hmem⟩)
            · exact Or.inl hy
            · rcases List.mem_cons.mp hu with rfl | hu2
              · exact absurd hk hne
              · exact Or.inr ⟨u, hu2, hne, hmem⟩
      | cons a b =>
          rw [show tickerFoldStep mapping acc t =
              setUnion acc ((assocGet mapping (strUpper (pyStrip t))).getD []) by
            simp [tickerFoldStep, hk]]
          rw [mem_setUnion]
          constructor
          · rintro ((hy | hmem) | ⟨u, hu, hne, humem⟩)
            · exact Or.inl hy
            · exact Or.inr ⟨t, List.mem_cons_self _ _, by rw [hk]; simp, hmem⟩
            · exact Or.inr ⟨u, List.mem_cons_of_mem _ hu, hne, humem⟩
          · rintro (hy | ⟨u, hu, hne, humem⟩)
            · exact Or.inl (Or.inl hy)
            · rcases List.mem_cons.mp hu with rfl | hu2
              · exact Or.inl (Or.inr humem)
              · exact Or.inr ⟨u, hu2, hne, humem⟩

theorem mem_resolve_cik_filter (mapping : List (Str × List Str))
    (cik ticker : List Str) (y : Str) :
    y ∈ (resolve_cik_filter mapping cik ticker).getD [] ↔
      (∃ c ∈ cik, _normalize_cik c = y ∧ y ≠ []) ∨
      (∃ t ∈ ticker, strUpper (pyStrip t) ≠ [] ∧
        y ∈ (assocGet mapping (strUpper (pyStrip t))).getD []) := by
  have hmem : y ∈ ticker.foldl (tickerFoldStep mapping) (cik.foldl cikFoldStep []) ↔
      (∃ c ∈ cik, _normalize_cik c = y ∧ y ≠ []) ∨
      (∃ t ∈ ticker, strUpper (pyStrip t) ≠ [] ∧
        y ∈ (assocGet mapping (strUpper (pyStrip t))).getD []) := by
    rw [mem_tickerFold, mem_cikFold]
    simp [or_comm]
  unfold resolve_cik_filter
  by_cases hfold : (ticker.foldl (tickerFoldStep mapping) (cik.foldl cikFoldStep [])).isEmpty
  · rw [if_pos hfold]
    have hnil := List.isEmpty_iff.mp hfold
    rw [hnil] at hmem
    simpa using hmem
  · rw [if_neg hfold]
    simpa using hmem

theorem resolve_cik_filter_none_iff (mapping : List (Str × List Str))
    (cik ticker : List Str) :
    resolve_cik_filter mapping cik ticker = none ↔
      (∀ c ∈ cik, _normalize_cik c = []) ∧
      (∀ t ∈ ticker, strUpper (pyStrip t) = [] ∨
        (assocGet mapping (strUpper (pyStrip t))).getD [] = []) := by
  constructor
  · intro hnone
    constructor
    · intro c hc
      by_contra hne
      have hm : _normalize_cik c ∈ (resolve_cik_filter mapping cik ticker).getD [] :=
        (mem_resolve_cik_filter mapping cik ticker _).mpr
          (Or.inl ⟨c, hc, rfl, hne⟩)
      rw [hnone] at hm
      simp at hm
    · intro t ht
      by_cases hk : strUpper (pyStrip t) = []
      · exact Or.inl hk
      · right
        by_contra hne
        rcases List.exists_mem_of_ne_nil _ hne with ⟨y, hy⟩
        have hm : y ∈ (resolve_cik_filter mapping cik ticker).getD [] :=
          (mem_resolve_cik_filter mapping cik ticker y).mpr
            (Or.inr ⟨t, ht, hk, hy⟩)
        rw [hnone] at hm
        simp at hm
  · rintro ⟨hc, ht⟩
    have hfold : ticker.foldl (tickerFoldStep mapping) (cik.foldl cikFoldStep []) = [] := by
      rw [List.eq_nil_iff_forall_not_mem]
      intro y hy
      rw [mem_tickerFold, mem_cikFold] at hy
      rcases hy with (hnil | ⟨c, hcm, hcy, hne⟩) | ⟨t, htm, hne, hmem⟩
      · simp at hnil
      · exact hne (hcy ▸ hc c hcm)
      · rcases ht t htm with h | h
        · exact hne h
        · rw [h] at hmem; simp at hmem
    show (if (ticker.foldl (tickerFoldStep mapping) (cik.foldl cikFoldStep [])).isEmpty
        then none else some (ticker.foldl (tickerFoldStep mapping) (cik.foldl cikFoldStep []))) = none
    rw [if_pos (by rw [hfold]; rfl)]

/-! ## Claim C9 -/

/-- C9 counterexample: the claim says entity-ID normalization zero-pads
exactly when the stripped value is purely numeric, but `_normalize_cik`
also zero-pads the non-numeric input `"abc"` to `"0000000abc"` instead of
returning the stripped value unchanged. -/
theorem C9_counterexample :
    pyIsDigit (pyStrip (S "abc")) = false ∧
    _normalize_cik (S "abc") = S "0000000abc" ∧
    _normalize_cik (S "abc") ≠ pyStrip (S "abc") := by
  decide

/-- C9 (amended): entity-ID normalization strips surrounding whitespace and
maps the empty result to empty; purely numeric values are canonicalized
through an integer parse and zero-padded to width 10; non-numeric values are
zero-padded to width 10 as well (not returned unpadded).
`resolve_cik_filter` returns exactly the union of the non-empty
normalizations of the entity IDs and of the CIK sets mapped from the
non-blank tickers, and an empty union is returned as `none` ("no
filter"). -/
theorem C9_normalize_and_resolve :
    (∀ v : Str, (pyStrip v).isEmpty = true → _normalize_cik v = [])
    ∧ (∀ v : Str, pyIsDigit (pyStrip v) = true →
        _normalize_cik v = zfill (natToStr (digitsToNat (pyStrip v))) 10)
    ∧ (∀ v : Str, (pyStrip v).isEmpty = false → pyIsDigit (pyStrip v) = false →
        _normalize_cik v = zfill (pyStrip v) 10)
    ∧ (∀ (mapping : List (Str × List Str)) (cik ticker : List Str) (y : Str),
        y ∈ (resolve_cik_filter mapping cik ticker).getD [] ↔
          (∃ c ∈ cik, _normalize_cik c = y ∧ y ≠ []) ∨
          (∃ t ∈ ticker, strUpper (pyStrip t) ≠ [] ∧
            y ∈ (assocGet mapping (strUpper (pyStrip t))).getD []))
    ∧ (∀ (mapping : List (Str × List Str)) (cik ticker : List Str),
        resolve_cik_filter mapping cik ticker = none ↔
          (∀ c ∈ cik, _normalize_cik c = []) ∧
          (∀ t ∈ ticker, strUpper (pyStrip t) = [] ∨
            (assocGet mapping (strUpper (pyStrip t))).getD [] = [])) := by
  refine ⟨?_, ?_, ?_, mem_resolve_cik_filter, resolve_cik_filter_none_iff⟩
  · intro v h
    unfold _normalize_cik
    rw [if_pos h]
  · intro v h
    have hne : (pyStrip v).isEmpty = false := by
      unfold pyIsDigit at h
      rcases Bool.and_eq_true_iff.mp h with ⟨h1, _⟩
      simpa using h1
    unfold _normalize_cik
    rw [if_neg (by simp [hne]), if_pos h]
  · intro v h1 h2
    unfold _normalize_cik
    rw [if_neg (by simp [h1]), if_neg (by simp [h2])]

/-- C9 witness: the amended characterization evaluated at concrete inputs —
`" 12 "` normalizes to `"0000000012"`, and the ticker `"abt"` resolves
through the mapping to a filter containing `"0000001800"`. -/
theorem C9_witness :
    _normalize_cik (S " 12 ") = zfill (natToStr (digitsToNat (pyStrip (S " 12 ")))) 10 ∧
    S "0000001800" ∈
      (resolve_cik_filter [(S "ABT", [S "0000001800"])] [] [S "abt"]).getD [] := by
  refine ⟨C9_normalize_and_resolve.2.1 (S " 12 ") (by decide), ?_⟩
  exact (C9_normalize_and_resolve.2.2.2.1 [(S "ABT", [S "0000001800"])] [] [S "abt"]
    (S "0000001800")).mpr (Or.inr ⟨S "abt", by decide, by decide, by decide⟩)

/-! ## Claim C10 -/

/-- C10: when every supplied entity ID is empty or whitespace-only and every
supplied ticker is blank or unmapped (or mapped to nothing),
`resolve_cik_filter` returns `none`, and the downloader's entity check then
keeps every row: entity filtering is silently disabled rather than failing
or filtering everything out. -/
theorem C10_blank_inputs_disable_filter (mapping : List (Str × List Str))
    (cik ticker : List Str) (rows : List MasterIndexRow)
    (hc : ∀ c ∈ cik, pyStrip c = [])
    (ht : ∀ t ∈ ticker, pyStrip t = [] ∨
      (assocGet mapping (strUpper (pyStrip t))).getD [] = []) :
    resolve_cik_filter mapping cik ticker = none ∧
    applyCikFilter (resolve_cik_filter mapping cik ticker) rows = rows := by
  have hnone : resolve_cik_filter mapping cik ticker = none := by
    rw [resolve_cik_filter_none_iff]
    constructor
    · intro c hcm
      unfold _normalize_cik
      rw [if_pos (by rw [hc c hcm]; rfl)]
    · intro t htm
      rcases ht t htm with h | h
      · exact Or.inl (by rw [h]; rfl)
      · exact Or.inr h
  exact ⟨hnone, by rw [hnone]; rfl⟩

/-- C10 witness: `cik=""` with no tickers yields no filter, and a one-row
list passes through the entity check unchanged. -/
theorem C10_witness :
    resolve_cik_filter [] [S ""] [] = none ∧
    applyCikFilter (resolve_cik_filter [] [S ""] []) [demoRow] = [demoRow] :=
  C10_blank_inputs_disable_filter [] [S ""] [] [demoRow]
    (by intro c hc; simp at hc; rw [hc]; rfl)
    (by intro t ht; simp at ht)

/-! ## Claim C8: deduplication -/

theorem iterUniqueAux_sublist (rows : List MasterIndexRow) :
    ∀ seen, List.Sublist (iterUniqueAux seen rows) rows := by
  induction rows with
  | nil => intro seen; simp [iterUniqueAux]
  | cons r rs ih =>
      intro seen
      unfold iterUniqueAux
      by_cases h : r.accession ∈ seen
      · rw [if_pos h]
        exact (ih seen).trans (List.sublist_cons_self r rs)
      · rw [if_neg h]
        exact (ih _).cons₂ r

theorem iterUniqueAux_not_mem_seen (rows : List MasterIndexRow) :
    ∀ (seen : List Str) (r : MasterIndexRow),
      r ∈ iterUniqueAux seen rows → r.accession ∉ seen := by
  induction rows with
  | nil => intro seen r h; simp [iterUniqueAux] at h
  | cons r0 rs ih =>
      intro seen r h
      unfold iterUniqueAux at h
      by_cases h0 : r0.accession ∈ seen
      · rw [if_pos h0] at h
        exact ih seen r h
      · rw [if_neg h0] at h
        rcases List.mem_cons.mp h with rfl | h2
        · exact h0
        · intro hmem
          exact ih _ r h2 (List.mem_cons_of_mem _ hmem)

theorem iterUniqueAux_nodup (rows : List MasterIndexRow) :
    ∀ seen, ((iterUniqueAux seen rows).map (fun r => r.accession)).Nodup := by
  induction rows with
  | nil => intro seen; simp [iterUniqueAux]
  | cons r0 rs ih =>
      intro seen
      unfold iterUniqueAux
      by_cases h0 : r0.accession ∈ seen
      · rw [if_pos h0]
        exact ih seen
      · rw [if_neg h0]
        rw [List.map_cons]
        refine List.nodup_cons.mpr ⟨?_, ih _⟩
        intro hmem
        rcases List.mem_map.mp hmem with ⟨r, hr, hacc⟩
        exact iterUniqueAux_not_mem_seen rs _ r hr (hacc ▸ List.mem_cons_self _ _)

theorem iterUniqueAux_find? (rows : List MasterIndexRow) :
    ∀ (seen : List Str) (a : Str), a ∉ seen →
      (iterUniqueAux seen rows).find? (fun r => r.accession == a) =
        rows.find? (fun r => r.accession == a) := by
  induction rows with
  | nil => intro seen a _; rfl
  | cons r0 rs ih =>
      intro seen a ha
      unfold iterUniqueAux
      by_cases h0 : r0.accession ∈ seen
      · rw [if_pos h0]
        have hne : ¬ ((r0.accession == a) = true) := by
          intro heq
          exact ha (eq_of_beq heq ▸ h0)
        rw [List.find?_cons_of_neg (p := fun (r : MasterIndexRow) => r.accession == a) _ (by simpa using hne),
          ih seen a ha]
      · rw [if_neg h0]
        by_cases hpa : (r0.accession == a) = true
        · rw [List.find?_cons_of_pos (p := fun (r : MasterIndexRow) => r.accession == a) _ hpa,
            List.find?_cons_of_pos (p := fun (r : MasterIndexRow) => r.accession == a) _ hpa]
        · rw [List.find?_cons_of_neg (p := fun (r : MasterIndexRow) => r.accession == a) _ (by simpa using hpa),
            List.find?_cons_of_neg (p := fun (r : MasterIndexRow) => r.accession == a) _ (by simpa using hpa)]
          refine ih _ a ?_
          intro hmem
          rcases List.mem_cons.mp hmem with heq | h2
          · exact hpa (by simp [heq])
          · exact ha h2

theorem downloadOne_result_accession (cfg : DlConfig) (man : Manifest) (fs : FS)
    (net : NetOracle) (row : MasterIndexRow) :
    (downloadOne cfg man fs net row).result.accession = row.accession := by
  simp only [downloadOne]
  split
  · split <;> rfl
  · split <;> rfl

theorem runTasks_accessions (cfg : DlConfig) (net : QuarterOracle) :
    ∀ (rows : List MasterIndexRow) (man : Manifest) (fs : FS),
      ((runTasks cfg net rows man fs).1.map (fun r => r.accession)) =
        rows.map (fun r => r.accession) := by
  intro rows
  induction rows with
  | nil => intro man fs; rfl
  | cons row rest ih =>
      intro man fs
      unfold runTasks
      simp only [List.map_cons]
      rw [downloadOne_result_accession]
      congr 1
      exact ih _ _

/-- C8: `iter_unique_accessions` yields a subsequence of its input (rows in
input order), keeps exactly the first row carrying each accession, and its
output carries pairwise-distinct accessions; consequently the filtered row
list of a run, and the per-row result list produced from it, contain each
accession at most once. -/
theorem C8_dedup_contract :
    (∀ rows : List MasterIndexRow,
        List.Sublist (iter_unique_accessions rows) rows)
    ∧ (∀ rows : List MasterIndexRow,
        ((iter_unique_accessions rows).map (fun r => r.accession)).Nodup)
    ∧ (∀ (rows : List MasterIndexRow) (a : Str),
        (iter_unique_accessions rows).find? (fun r => r.accession == a) =
          rows.find? (fun r => r.accession == a))
    ∧ (∀ (rows : List MasterIndexRow) (flt : FilingFilter),
        ((filter_master_rows rows flt).map (fun r => r.accession)).Nodup)
    ∧ (∀ (cfg : DlConfig) (net : QuarterOracle) (rows : List MasterIndexRow)
        (flt : FilingFilter) (cikSet : Option (List Str)) (man : Manifest) (fs : FS),
        ((runTasks cfg net (applyCikFilter cikSet (filter_master_rows rows flt))
          man fs).1.map (fun r => r.accession)).Nodup) := by
  have hfilter : ∀ (rows : List MasterIndexRow) (flt : FilingFilter),
      ((filter_master_rows rows flt).map (fun r => r.accession)).Nodup := by
    intro rows flt
    exact (iterUniqueAux_nodup rows []).sublist
      ((List.filter_sublist (iter_unique_accessions rows)).map _)
  refine ⟨fun rows => iterUniqueAux_sublist rows [],
    fun rows => iterUniqueAux_nodup rows [],
    fun rows a => iterUniqueAux_find? rows [] a (by simp),
    hfilter, ?_⟩
  intro cfg net rows flt cikSet man fs
  rw [runTasks_accessions]
  cases cikSet with
  | none => exact hfilter rows flt
  | some s =>
      exact (hfilter rows flt).sublist
        ((List.filter_sublist (filter_master_rows rows flt)).map _)

/-- C8 witness: deduplicating a two-copy row list keeps one row, and its
result-list accession is unique. -/
theorem C8_witness :
    List.Sublist (iter_unique_accessions [demoRow, demoRow]) [demoRow, demoRow] ∧
    ((iter_unique_accessions [demoRow, demoRow]).map (fun r => r.accession)).Nodup :=
  ⟨C8_dedup_contract.1 [demoRow, demoRow], C8_dedup_contract.2.1 [demoRow, demoRow]⟩

/-! ## Claim C6: `parse_master_index` -/

theorem parseLoop_ok_ne_nil :
    ∀ (lines : List Str) (s d : Bool) (acc rows : List MasterIndexRow),
      parseMasterLoop s d acc lines = .ok rows → rows ≠ [] := by
  intro lines
  induction lines with
  | nil =>
      intro s d acc rows h
      unfold parseMasterLoop at h
      split at h
      · exact Except.noConfusion h
      · rename_i ha
        have h2 := Except.ok.inj h
        subst h2
        intro hnil
        rw [hnil] at ha
        exact ha rfl
  | cons l ls ih =>
      intro s d acc rows h
      unfold parseMasterLoop at h
      split at h
      · split at h
        · exact ih _ _ _ _ h
        · split at h
          · exact ih _ _ _ _ h
          · exact Except.noConfusion h
      · split at h
        · exact ih _ _ _ _ h
        · split at h
          · exact ih _ _ _ _ h
          · exact ih _ _ _ _ h

theorem parseLoop_dash_of_ok :
    ∀ (lines : List Str) (rows : List MasterIndexRow),
      parseMasterLoop true false [] lines = .ok rows →
      ∃ j, ∃ hj : j < lines.length,
        isDashRule (rstripNewline (lines.get ⟨j, hj⟩)) = true := by
  intro lines
  induction lines with
  | nil =>
      intro rows h
      unfold parseMasterLoop at h
      simp at h
  | cons l ls ih =>
      intro rows h
      unfold parseMasterLoop at h
      rw [if_neg (by simp)] at h
      split at h
      · rcases ih _ h with ⟨j, hj, hdash⟩
        exact ⟨j + 1, Nat.succ_lt_succ hj, hdash⟩
      · split at h
        · rename_i hcond
          exact ⟨0, Nat.succ_pos _, by simpa using hcond⟩
        · rcases ih _ h with ⟨j, hj, hdash⟩
          exact ⟨j + 1, Nat.succ_lt_succ hj, hdash⟩

theorem parseLoop_header_dash_of_ok :
    ∀ (lines : List Str) (rows : List MasterIndexRow),
      parseMasterLoop false false [] lines = .ok rows →
      ∃ i, ∃ hi : i < lines.length,
        isHeaderLine (rstripNewline (lines.get ⟨i, hi⟩)) = true ∧
        ∃ j, ∃ hj : j < lines.length, i < j ∧
          isDashRule (rstripNewline (lines.get ⟨j, hj⟩)) = true := by
  intro lines
  induction lines with
  | nil =>
      intro rows h
      unfold parseMasterLoop at h
      simp at h
  | cons l ls ih =>
      intro rows h
      unfold parseMasterLoop at h
      rw [if_neg (by simp)] at h
      split at h
      · rename_i hhead
        rcases parseLoop_dash_of_ok ls _ h with ⟨j, hj, hdash⟩
        exact ⟨0, Nat.succ_pos _, hhead,
          j + 1, Nat.succ_lt_succ hj, Nat.succ_pos j, hdash⟩
      · split at h
        · rename_i hcond
          simp at hcond
        · rcases ih _ h with ⟨i, hi, hhead, j, hj, hij, hdash⟩
          exact ⟨i + 1, Nat.succ_lt_succ hi, hhead,
            j + 1, Nat.succ_lt_succ hj, Nat.succ_lt_succ hij, hdash⟩

theorem parseLoop_data_badline (sawHeader : Bool) (acc : List MasterIndexRow)
    (l : Str) (rest : List Str)
    (hblank : isBlankLine (rstripNewline l) = false)
    (hlen : (splitOnChar '|' (rstripNewline l)).length ≠ 5) :
    parseMasterLoop sawHeader true acc (l :: rest) =
      .error (S "Unexpected master.idx row format: " ++ rstripNewline l) := by
  unfold parseMasterLoop
  rw [if_pos (show (true = true) from rfl), if_neg (by simp [hblank])]
  simp only [parseMasterLine]
  rw [dif_neg hlen]

theorem parse_header_no_data_error (hd dash : Str)
    (hh : isHeaderLine (rstripNewline hd) = true)
    (hd1 : isHeaderLine (rstripNewline dash) = false)
    (hd2 : isDashRule (rstripNewline dash) = true) :
    parse_master_index [hd, dash] =
      .error (S "No rows parsed from master.idx (header not found?)") := by
  unfold parse_master_index parseMasterLoop
  rw [if_neg (by simp), if_pos hh]
  unfold parseMasterLoop
  rw [if_neg (by simp), if_neg (by simp [hd1]), if_pos (by simp [hd2])]
  rfl

/-- C6: the master-index parser produces rows only after a line carrying the
literal header followed (later) by a dash-rule line; in data mode any
non-blank line that does not split on `|` into exactly five fields fails
with the master-index-parse error; a successful parse never returns zero
rows, and an index consisting of the header and dash rule with no data rows
fails with the master-index-parse error. -/
theorem C6_parse_master_index_contract :
    (∀ (lines : List Str) (rows : List MasterIndexRow),
        parse_master_index lines = .ok rows →
        ∃ i, ∃ hi : i < lines.length,
          isHeaderLine (rstripNewline (lines.get ⟨i, hi⟩)) = true ∧
          ∃ j, ∃ hj : j < lines.length, i < j ∧
            isDashRule (rstripNewline (lines.get ⟨j, hj⟩)) = true)
    ∧ (∀ (sawHeader : Bool) (acc : List MasterIndexRow) (l : Str) (rest : List Str),
        isBlankLine (rstripNewline l) = false →
        (splitOnChar '|' (rstripNewline l)).length ≠ 5 →
        parseMasterLoop sawHeader true acc (l :: rest) =
          .error (S "Unexpected master.idx row format: " ++ rstripNewline l))
    ∧ (∀ (lines : List Str) (rows : List MasterIndexRow),
        parse_master_index lines = .ok rows → rows ≠ [])
    ∧ (∀ (hd dash : Str), isHeaderLine (rstripNewline hd) = true →
        isHeaderLine (rstripNewline dash) = false →
        isDashRule (rstripNewline dash) = true →
        parse_master_index [hd, dash] =
          .error (S "No rows parsed from master.idx (header not found?)")) :=
  ⟨fun lines rows h => parseLoop_header_dash_of_ok lines rows h,
   parseLoop_data_badline,
   fun lines _ h => parseLoop_ok_ne_nil lines false false [] _ h,
   parse_header_no_data_error⟩

/-- C6 witness: the contract evaluated on concrete indices — a valid
three-line index exhibits the header/dash structure; the data line `"a|b"`
fails with the row-format error; a header-and-dash-only index fails with
the no-rows error. -/
theorem C6_witness :
    (∃ i, ∃ hi : i < demoIdxLines.length,
      isHeaderLine (rstripNewline (demoIdxLines.get ⟨i, hi⟩)) = true ∧
      ∃ j, ∃ hj : j < demoIdxLines.length, i < j ∧
        isDashRule (rstripNewline (demoIdxLines.get ⟨j, hj⟩)) = true)
    ∧ parseMasterLoop false true [] [S "a|b"] =
        .error (S "Unexpected master.idx row format: " ++ rstripNewline (S "a|b"))
    ∧ parse_master_index
        [S "CIK|Company Name|Form Type|Date Filed|Filename", S "----"] =
        .error (S "No rows parsed from master.idx (header not found?)") :=
  ⟨C6_parse_master_index_contract.1 demoIdxLines [demoRow] (by decide),
   C6_parse_master_index_contract.2.1 false [] (S "a|b") [] (by decide) (by decide),
   C6_parse_master_index_contract.2.2.2
     (S "CIK|Company Name|Form Type|Date Filed|Filename") (S "----")
     (by decide) (by decide) (by decide)⟩

/-! ## Claim C7: folder `index.json` shape -/

theorem extract_err_not_object (base : Str) (payload : JVal)
    (h : payload.isObj = false) :
    _extract_files_from_index_json payload base =
      .error (S "index.json payload was not an object") := by
  cases payload <;> first | rfl | (exfalso; exact Bool.noConfusion h)

theorem extract_obj_eq (base : Str) (kvs : List (Str × JVal)) :
    _extract_files_from_index_json (.obj kvs) base =
      (match jget kvs (S "directory") with
       | some (.obj dkvs) =>
           (match jget dkvs (S "item") with
            | some (.arr items) => .ok (extractItems base items)
            | _ => .error (S "index.json missing directory.item array"))
       | _ => .error (S "index.json missing directory object")) := rfl

theorem extract_err_no_directory (base : Str) (kvs : List (Str × JVal))
    (h : ∀ dkvs, jget kvs (S "directory") ≠ some (.obj dkvs)) :
    _extract_files_from_index_json (.obj kvs) base =
      .error (S "index.json missing directory object") := by
  rw [extract_obj_eq]
  cases hd : jget kvs (S "directory") with
  | none => rfl
  | some v =>
      cases v with
      | obj dkvs => exact absurd hd (h dkvs)
      | null => rfl
      | bool b => rfl
      | num n => rfl
      | str s => rfl
      | arr xs => rfl

theorem extract_err_no_item (base : Str) (kvs dkvs : List (Str × JVal))
    (hdir : jget kvs (S "directory") = some (.obj dkvs))
    (h : ∀ items, jget dkvs (S "item") ≠ some (.arr items)) :
    _extract_files_from_index_json (.obj kvs) base =
      .error (S "index.json missing directory.item array") := by
  rw [extract_obj_eq, hdir]
  show (match jget dkvs (S "item") with
    | some (.arr items) => Except.ok (extractItems base items)
    | _ => Except.error (S "index.json missing directory.item array")) =
    Except.error (S "index.json missing directory.item array")
  cases hi : jget dkvs (S "item") with
  | none => rfl
  | some v =>
      cases v with
      | arr xs => exact absurd hi (h xs)
      | null => rfl
      | bool b => rfl
      | num n => rfl
      | str s => rfl
      | obj o => rfl

theorem extract_ok_shape (base : Str) (kvs dkvs : List (Str × JVal))
    (items : List JVal)
    (hdir : jget kvs (S "directory") = some (.obj dkvs))
    (hitem : jget dkvs (S "item") = some (.arr items)) :
    _extract_files_from_index_json (.obj kvs) base =
      .ok (extractItems base items) := by
  rw [extract_obj_eq, hdir]
  show (match jget dkvs (S "item") with
    | some (.arr its) => Except.ok (extractItems base its)
    | _ => Except.error (S "index.json missing directory.item array")) =
    Except.ok (extractItems base items)
  rw [hitem]

theorem extractItems_obj_eq (base : Str) (kvs : List (Str × JVal))
    (items : List JVal) :
    extractItems base (.obj kvs :: items) =
      (match jget kvs (S "name") with
       | some (.str n) =>
           if n.isEmpty then extractItems base items
           else ⟨n, base ++ n⟩ :: extractItems base items
       | _ => extractItems base items) := rfl

theorem extractItems_skips_bad (base : Str) (it : JVal) (items : List JVal)
    (h : ∀ kvs n, it = .obj kvs → jget kvs (S "name") = some (.str n) → n = []) :
    extractItems base (it :: items) = extractItems base items := by
  cases it with
  | obj kvs =>
      rw [extractItems_obj_eq]
      cases hn : jget kvs (S "name") with
      | none => rfl
      | some v =>
          cases v with
          | str n =>
              have hnil : n = [] := h kvs n rfl hn
              show (if n.isEmpty = true then extractItems base items
                else ⟨n, base ++ n⟩ :: extractItems base items) = extractItems base items
              rw [if_pos (by rw [hnil]; rfl)]
          | null => rfl
          | bool b => rfl
          | num m => rfl
          | arr xs => rfl
          | obj o => rfl
  | null => rfl
  | bool b => rfl
  | num n => rfl
  | str s => rfl
  | arr xs => rfl

theorem extractItems_keeps_good (base : Str) (kvs : List (Str × JVal))
    (n : Str) (items : List JVal)
    (hn : jget kvs (S "name") = some (.str n)) (hne : n ≠ []) :
    extractItems base (.obj kvs :: items) =
      ⟨n, base ++ n⟩ :: extractItems base items := by
  rw [extractItems_obj_eq, hn]
  show (if n.isEmpty = true then extractItems base items
    else ⟨n, base ++ n⟩ :: extractItems base items) =
    ⟨n, base ++ n⟩ :: extractItems base items
  rw [if_neg (by simpa using hne)]

/-- C7 counterexample: a folder listing whose `item` array contains three
shape violations (an object without `name`, a non-object entry, an empty
`name`) alongside one valid entry is accepted: extraction returns just the
valid file and the whole filing task completes with status `downloaded` —
the violations do not fail the filing with a download error. -/
theorem C7_counterexample :
    _extract_files_from_index_json badListing (S "base/") =
      .ok [⟨S "doc.xml", S "base/doc.xml"⟩] ∧
    (downloadOne cfgFiles [] [] ⟨fun _ => .ok badListing, fun _ => .ok ()⟩
      demoRow).result.status = S "downloaded" := by
  constructor
  · decide
  · decide

/-- C7 (amended): the folder `index.json` payload must be an object whose
`directory` member is an object whose `item` member is an array — violations
of that top-level shape fail the filing with a download error; entries of
the array that are not objects, or lack a string `name`, or have an empty
`name`, are silently skipped rather than failing, and each surviving entry
has a non-empty name with `href = base ++ name`. -/
theorem C7_extract_contract :
    (∀ (base : Str) (payload : JVal), payload.isObj = false →
      _extract_files_from_index_json payload base =
        .error (S "index.json payload was not an object"))
    ∧ (∀ (base : Str) (kvs : List (Str × JVal)),
        (∀ dkvs, jget kvs (S "directory") ≠ some (.obj dkvs)) →
        _extract_files_from_index_json (.obj kvs) base =
          .error (S "index.json missing directory object"))
    ∧ (∀ (base : Str) (kvs dkvs : List (Str × JVal)),
        jget kvs (S "directory") = some (.obj dkvs) →
        (∀ items, jget dkvs (S "item") ≠ some (.arr items)) →
        _extract_files_from_index_json (.obj kvs) base =
          .error (S "index.json missing directory.item array"))
    ∧ (∀ (base : Str) (it : JVal) (items : List JVal),
        (∀ kvs n, it = .obj kvs → jget kvs (S "name") = some (.str n) → n = []) →
        extractItems base (it :: items) = extractItems base items)
    ∧ (∀ (base : Str) (kvs : List (Str × JVal)) (n : Str) (items : List JVal),
        jget kvs (S "name") = some (.str n) → n ≠ [] →
        extractItems base (.obj kvs :: items) =
          ⟨n, base ++ n⟩ :: extractItems base items)
    ∧ (∀ (base : Str) (f : FileEntry) (items : List JVal),
        f ∈ extractItems base items → f.name ≠ [] ∧ f.href = base ++ f.name) := by
  refine ⟨extract_err_not_object, extract_err_no_directory, extract_err_no_item,
    extractItems_skips_bad, extractItems_keeps_good, ?_⟩
  intro base f items
  induction items with
  | nil => intro h; simp [extractItems] at h
  | cons it rest ih =>
      cases it with
      | obj kvs =>
          rw [extractItems_obj_eq]
          cases hn : jget kvs (S "name") with
          | none => exact ih
          | some v =>
              cases v with
              | str n =>
                  show f ∈ (if n.isEmpty = true then extractItems base rest
                    else ⟨n, base ++ n⟩ :: extractItems base rest) →
                    f.name ≠ [] ∧ f.href = base ++ f.name
                  by_cases hnil : n.isEmpty = true
                  · rw [if_pos hnil]; exact ih
                  · rw [if_neg hnil]
                    intro h
                    rcases List.mem_cons.mp h with rfl | h2
                    · exact ⟨by simpa using hnil, rfl⟩
                    · exact ih h2
              | null => exact ih
              | bool b => exact ih
              | num m => exact ih
              | arr xs => exact ih
              | obj o => exact ih
      | null => exact ih
      | bool b => exact ih
      | num n => exact ih
      | str s => exact ih
      | arr xs => exact ih

/-- C7 witness: the contract evaluated at concrete payloads — a non-object
payload errors, a bad item is skipped, a good item is kept with its href. -/
theorem C7_witness :
    _extract_files_from_index_json (.arr []) (S "b/") =
      .error (S "index.json payload was not an object") ∧
    extractItems (S "b/") [.obj [], .obj [(S "name", .str (S "a.xml"))]] =
      extractItems (S "b/") [.obj [(S "name", .str (S "a.xml"))]] ∧
    extractItems (S "b/") [.obj [(S "name", .str (S "a.xml"))]] =
      [⟨S "a.xml", S "b/a.xml"⟩] := by
  refine ⟨C7_extract_contract.1 (S "b/") (.arr []) (by decide),
    C7_extract_contract.2.2.2.1 (S "b/") (.obj []) _
      (by intro kvs n h1 h2; cases h1; simp [jget] at h2), ?_⟩
  rw [C7_extract_contract.2.2.2.2.1 (S "b/") [(S "name", .str (S "a.xml"))]
    (S "a.xml") [] rfl (by decide)]
  rfl

/-! ## Claims C3 and C5: the HTTP retry loop -/

theorem requestLoop_exhausted (url : Str) (oracle : Nat → AttemptOutcome)
    (rand : Nat → ℚ) (attempt : Nat) (e : ReqError) :
    requestLoop url oracle rand 0 attempt (some e) =
      ⟨.error e, attempt - 1, []⟩ := rfl

theorem requestLoop_exc (url : Str) (oracle : Nat → AttemptOutcome)
    (rand : Nat → ℚ) (rem attempt : Nat) (last : Option ReqError) (m : Str)
    (h : oracle attempt = .exc m) :
    requestLoop url oracle rand (rem + 1) attempt last =
      addSleep (sleepCaught attempt (rand attempt))
        (requestLoop url oracle rand rem (attempt + 1)
          (some (.transportError m))) := by
  conv_lhs => unfold requestLoop
  rw [h]

theorem requestLoop_429 (url : Str) (oracle : Nat → AttemptOutcome)
    (rand : Nat → ℚ) (rem attempt : Nat) (last : Option ReqError)
    (ra : Option Str) (h : oracle attempt = .resp 429 ra) :
    requestLoop url oracle rand (rem + 1) attempt last =
      addSleep (sleep429 attempt ra (rand attempt))
        (requestLoop url oracle rand rem (attempt + 1)
          (some (.rateLimited url))) := by
  simp only [requestLoop, h]
  rw [if_pos trivial]

theorem requestLoop_5xx (url : Str) (oracle : Nat → AttemptOutcome)
    (rand : Nat → ℚ) (rem attempt : Nat) (last : Option ReqError)
    (s : Nat) (ra : Option Str) (h : oracle attempt = .resp s ra)
    (h5 : 500 ≤ s) (h6 : s < 600) :
    requestLoop url oracle rand (rem + 1) attempt last =
      addSleep (sleep5xx attempt (rand attempt))
        (requestLoop url oracle rand rem (attempt + 1)
          (some (.serverError s))) := by
  simp only [requestLoop, h]
  rw [if_neg (by omega), if_pos ⟨h5, h6⟩]

theorem requestLoop_other (url : Str) (oracle : Nat → AttemptOutcome)
    (rand : Nat → ℚ) (rem attempt : Nat) (last : Option ReqError)
    (s : Nat) (ra : Option Str) (h : oracle attempt = .resp s ra)
    (h429 : s ≠ 429) (h5 : ¬(500 ≤ s ∧ s < 600)) (h2 : ¬(200 ≤ s ∧ s < 300)) :
    requestLoop url oracle rand (rem + 1) attempt last =
      addSleep (sleepCaught attempt (rand attempt))
        (requestLoop url oracle rand rem (attempt + 1)
          (some (.httpStatusError s))) := by
  simp only [requestLoop, h]
  rw [if_neg h429, if_neg h5, if_neg h2]

theorem requestLoop_4xx (url : Str) (oracle : Nat → AttemptOutcome)
    (rand : Nat → ℚ) (rem attempt : Nat) (last : Option ReqError)
    (s : Nat) (ra : Option Str) (h : oracle attempt = .resp s ra)
    (h4 : 400 ≤ s) (h5 : s < 500) (h429 : s ≠ 429) :
    requestLoop url oracle rand (rem + 1) attempt last =
      addSleep (sleepCaught attempt (rand attempt))
        (requestLoop url oracle rand rem (attempt + 1)
          (some (.httpStatusError s))) :=
  requestLoop_other url oracle rand rem attempt last s ra h h429
    (by omega) (by omega)

theorem requestLoop_2xx (url : Str) (oracle : Nat → AttemptOutcome)
    (rand : Nat → ℚ) (rem attempt : Nat) (last : Option ReqError)
    (s : Nat) (ra : Option Str) (h : oracle attempt = .resp s ra)
    (h2 : 200 ≤ s) (h3 : s < 300) :
    requestLoop url oracle rand (rem + 1) attempt last =
      ⟨.ok s, attempt, []⟩ := by
  simp only [requestLoop, h]
  rw [if_neg (by omega), if_neg (by omega), if_pos ⟨h2, h3⟩]

theorem requestLoop_attempts_le (url : Str) (oracle : Nat → AttemptOutcome)
    (rand : Nat → ℚ) :
    ∀ (rem attempt : Nat) (last : Option ReqError),
      (requestLoop url oracle rand rem attempt last).attempts ≤
        attempt + rem - 1 := by
  intro rem
  induction rem with
  | zero =>
      intro attempt last
      show attempt - 1 ≤ attempt + 0 - 1
      omega
  | succ rem ih =>
      intro attempt last
      cases h : oracle attempt with
      | exc m =>
          rw [requestLoop_exc url oracle rand rem attempt last m h]
          calc (requestLoop url oracle rand rem (attempt + 1)
                  (some (.transportError m))).attempts
              ≤ (attempt + 1) + rem - 1 := ih (attempt + 1) _
            _ ≤ attempt + (rem + 1) - 1 := by omega
      | resp s ra =>
          by_cases h429 : s = 429
          · subst h429
            rw [requestLoop_429 url oracle rand rem attempt last ra h]
            calc (requestLoop url oracle rand rem (attempt + 1)
                    (some (.rateLimited url))).attempts
                ≤ (attempt + 1) + rem - 1 := ih (attempt + 1) _
              _ ≤ attempt + (rem + 1) - 1 := by omega
          · by_cases h5 : 500 ≤ s ∧ s < 600
            · rw [requestLoop_5xx url oracle rand rem attempt last s ra h h5.1 h5.2]
              calc (requestLoop url oracle rand rem (attempt + 1)
                      (some (.serverError s))).attempts
                  ≤ (attempt + 1) + rem - 1 := ih (attempt + 1) _
                _ ≤ attempt + (rem + 1) - 1 := by omega
            · by_cases h2 : 200 ≤ s ∧ s < 300
              · rw [requestLoop_2xx url oracle rand rem attempt last s ra h h2.1 h2.2]
                show attempt ≤ attempt + (rem + 1) - 1
                omega
              · rw [requestLoop_other url oracle rand rem attempt last s ra h h429 h5 h2]
                calc (requestLoop url oracle rand rem (attempt + 1)
                        (some (.httpStatusError s))).attempts
                    ≤ (attempt + 1) + rem - 1 := ih (attempt + 1) _
                  _ ≤ attempt + (rem + 1) - 1 := by omega

/-- C3 counterexample: with the default budget, a first-attempt 404 is not
surfaced — the client sleeps `min(10, 0.5·1 + r)` and retries, and the run
returns the 200 obtained on attempt 2.  This contradicts "surfaced as an
error immediately — no further retry attempts". -/
theorem C3_counterexample :
    (secRequest 6 (S "u") oracle404then200 (fun _ => 0)).result = .ok 200 ∧
    (secRequest 6 (S "u") oracle404then200 (fun _ => 0)).attempts = 2 ∧
    (secRequest 6 (S "u") oracle404then200 (fun _ => 0)).sleeps =
      [sleepCaught 1 0] := by
  refine ⟨by decide, by decide, rfl⟩

/-- C3 (amended): a 4xx status other than 429 raises `HTTPStatusError`
inside the `try`, which the retry handler catches together with transport
errors — the routine sleeps `min(10, 0.5·attempt + r)` and retries,
recording the error; the error surfaces only once the retry budget is
exhausted.  2xx responses are returned to the caller immediately. -/
theorem C3_4xx_retried_not_raised :
    (∀ (url : Str) (oracle : Nat → AttemptOutcome) (rand : Nat → ℚ)
        (rem attempt : Nat) (last : Option ReqError) (s : Nat) (ra : Option Str),
        oracle attempt = .resp s ra → 400 ≤ s → s < 500 → s ≠ 429 →
        requestLoop url oracle rand (rem + 1) attempt last =
          addSleep (sleepCaught attempt (rand attempt))
            (requestLoop url oracle rand rem (attempt + 1)
              (some (.httpStatusError s))))
    ∧ (∀ (url : Str) (oracle : Nat → AttemptOutcome) (rand : Nat → ℚ)
        (attempt : Nat) (e : ReqError),
        requestLoop url oracle rand 0 attempt (some e) =
          ⟨.error e, attempt - 1, []⟩)
    ∧ (∀ (url : Str) (oracle : Nat → AttemptOutcome) (rand : Nat → ℚ)
        (rem attempt : Nat) (last : Option ReqError) (s : Nat) (ra : Option Str),
        oracle attempt = .resp s ra → 200 ≤ s → s < 300 →
        requestLoop url oracle rand (rem + 1) attempt last =
          ⟨.ok s, attempt, []⟩) :=
  ⟨requestLoop_4xx, requestLoop_exhausted, requestLoop_2xx⟩

/-- C3 witness: the amended contract evaluated concretely — a 404 at attempt
1 with one remaining retry steps to the retry state, an exhausted budget
raises the recorded `HTTPStatusError`, and a 200 returns. -/
theorem C3_witness :
    requestLoop (S "u") oracle404then200 (fun _ => 0) 1 1 none =
      addSleep (sleepCaught 1 0)
        (requestLoop (S "u") oracle404then200 (fun _ => 0) 0 2
          (some (.httpStatusError 404))) ∧
    requestLoop (S "u") oracle404then200 (fun _ => 0) 0 2
        (some (.httpStatusError 404)) =
      ⟨.error (.httpStatusError 404), 1, []⟩ ∧
    requestLoop (S "u") oracle404then200 (fun _ => 0) 1 2 none =
      ⟨.ok 200, 2, []⟩ :=
  ⟨C3_4xx_retried_not_raised.1 (S "u") oracle404then200 (fun _ => 0) 0 1 none
      404 none rfl (by decide) (by decide) (by decide),
   C3_4xx_retried_not_raised.2.1 (S "u") oracle404then200 (fun _ => 0) 2
      (.httpStatusError 404),
   C3_4xx_retried_not_raised.2.2 (S "u") oracle404then200 (fun _ => 0) 0 2 none
      200 none rfl (by decide) (by decide)⟩

/-- C5 counterexample: `Retry-After: 0` is not a positive integer, yet the
client sleeps exactly 0 seconds instead of the claimed
`min(60, 2^attempt + r)` (which is 2 here): `isdigit` accepts `"0"`. -/
theorem C5_counterexample :
    (secRequest 6 (S "u") oracle429zero (fun _ => 0)).sleeps = [0] ∧
    (0 : ℚ) ≠ min 60 ((2 : ℚ) ^ 1 + 0) ∧
    (secRequest 6 (S "u") oracle429zero (fun _ => 0)).result = .ok 200 := by
  refine ⟨by decide, by norm_num, by decide⟩

/-- C5 (amended): the request routine makes at most 6 attempts with the
default configuration; on a 429 it sleeps exactly `Retry-After` seconds
whenever that header is a non-empty digit string (including `"0"`), and
otherwise `min(60, 2^attempt + r)`; on a 5xx it sleeps
`min(30, 0.5·2^attempt + r)`; and once the budget is exhausted the last
recorded error is raised. -/
theorem C5_retry_policy :
    (∀ (m : Nat) (url : Str) (oracle : Nat → AttemptOutcome) (rand : Nat → ℚ),
        (secRequest m url oracle rand).attempts ≤ m)
    ∧ (∀ (url : Str) (oracle : Nat → AttemptOutcome) (rand : Nat → ℚ)
        (rem attempt : Nat) (last : Option ReqError) (ra : Option Str),
        oracle attempt = .resp 429 ra →
        requestLoop url oracle rand (rem + 1) attempt last =
          addSleep (sleep429 attempt ra (rand attempt))
            (requestLoop url oracle rand rem (attempt + 1)
              (some (.rateLimited url))))
    ∧ (∀ (attempt : Nat) (h : Str) (r : ℚ), pyIsDigit h = true →
        sleep429 attempt (some h) r = (digitsToNat h : ℚ))
    ∧ (∀ (attempt : Nat) (h : Str) (r : ℚ), pyIsDigit h = false →
        sleep429 attempt (some h) r = min 60 ((2 ^ attempt : ℚ) + r))
    ∧ (∀ (attempt : Nat) (r : ℚ),
        sleep429 attempt none r = min 60 ((2 ^ attempt : ℚ) + r))
    ∧ (∀ (url : Str) (oracle : Nat → AttemptOutcome) (rand : Nat → ℚ)
        (rem attempt : Nat) (last : Option ReqError) (s : Nat) (ra : Option Str),
        oracle attempt = .resp s ra → 500 ≤ s → s < 600 →
        requestLoop url oracle rand (rem + 1) attempt last =
          addSleep (sleep5xx attempt (rand attempt))
            (requestLoop url oracle rand rem (attempt + 1)
              (some (.serverError s))))
    ∧ (∀ (attempt : Nat) (r : ℚ),
        sleep5xx attempt r = min 30 ((2 ^ attempt : ℚ) * (1 / 2) + r))
    ∧ (∀ (url : Str) (oracle : Nat → AttemptOutcome) (rand : Nat → ℚ)
        (attempt : Nat) (e : ReqError),
        requestLoop url oracle rand 0 attempt (some e) =
          ⟨.error e, attempt - 1, []⟩) := by
  refine ⟨?_, requestLoop_429, ?_, ?_, fun attempt r => rfl, requestLoop_5xx,
    fun attempt r => rfl, requestLoop_exhausted⟩
  · intro m url oracle rand
    have h := requestLoop_attempts_le url oracle rand m 1 none
    calc (secRequest m url oracle rand).attempts ≤ 1 + m - 1 := h
      _ ≤ m := by omega
  · intro attempt h r hd
    show (if pyIsDigit h = true then ((digitsToNat h : ℚ))
      else min 60 ((2 ^ attempt : ℚ) + r)) = (digitsToNat h : ℚ)
    rw [if_pos hd]
  · intro attempt h r hd
    show (if pyIsDigit h = true then ((digitsToNat h : ℚ))
      else min 60 ((2 ^ attempt : ℚ) + r)) = min 60 ((2 ^ attempt : ℚ) + r)
    rw [if_neg (by simp [hd])]

/-- C5 witness: the amended policy evaluated concretely — the default budget
caps the all-429 run at 6 attempts, `Retry-After: 7` sleeps exactly 7,
`Retry-After: "x"` falls back to the 2-second backoff at attempt 1, and a
first-attempt 503 sleeps 1 + r. -/
theorem C5_witness :
    (secRequest 6 (S "u") (fun _ => .resp 429 none) (fun _ => 0)).attempts ≤ 6 ∧
    sleep429 1 (some (S "7")) 0 = (7 : ℚ) ∧
    sleep429 1 (some (S "x")) 0 = min 60 ((2 ^ 1 : ℚ) + 0) ∧
    sleep5xx 1 0 = min 30 ((2 ^ 1 : ℚ) * (1 / 2) + 0) ∧
    requestLoop (S "u") (fun _ => .resp 503 none) (fun _ => 0) 1 1 none =
      addSleep (sleep5xx 1 0)
        (requestLoop (S "u") (fun _ => .resp 503 none) (fun _ => 0) 0 2
          (some (.serverError 503))) :=
  ⟨C5_retry_policy.1 6 (S "u") (fun _ => .resp 429 none) (fun _ => 0),
   by rw [C5_retry_policy.2.2.1 1 (S "7") 0 (by decide)]; decide,
   C5_retry_policy.2.2.2.1 1 (S "x") 0 (by decide),
   C5_retry_policy.2.2.2.2.2.2.1 1 0,
   C5_retry_policy.2.2.2.2.2.1 (S "u") (fun _ => .resp 503 none) (fun _ => 0)
     0 1 none 503 none rfl (by omega) (by omega)⟩

/-! ## Path and filesystem lemmas (for C1, C2, C4) -/

theorem isPre_nil (q : List Str) : isPre [] q = true := rfl

theorem isPre_refl : ∀ (p : List Str), isPre p p = true := by
  intro p
  induction p with
  | nil => rfl
  | cons a as ih => simp [isPre, ih]

theorem isPre_comparable :
    ∀ (q p r : List Str), isPre p q = true → isPre r q = true →
      isPre p r = true ∨ isPre r p = true := by
  intro q
  induction q with
  | nil =>
      intro p r hp hr
      cases p with
      | nil => exact Or.inl (isPre_nil r)
      | cons a as => exact absurd hp (by simp [isPre])
  | cons c cs ih =>
      intro p r hp hr
      cases p with
      | nil => exact Or.inl (isPre_nil r)
      | cons a as =>
          cases r with
          | nil => exact Or.inr (isPre_nil (a :: as))
          | cons b bs =>
              simp only [isPre, Bool.and_eq_true, beq_iff_eq] at hp hr
              rcases ih as bs hp.2 hr.2 with h | h
              · exact Or.inl (by simp [isPre, hp.1, hr.1, h])
              · exact Or.inr (by simp [isPre, hp.1, hr.1, h])

theorem isPre_ne_head :
    ∀ (dd : List Str) (a b : Str) (s t : List Str), a ≠ b →
      isPre (dd ++ a :: s) (dd ++ b :: t) = false := by
  intro dd
  induction dd with
  | nil =>
      intro a b s t hab
      simp [isPre, hab]
  | cons d ds ih =>
      intro a b s t hab
      simp only [List.cons_append, isPre, Bool.and_eq_true]
      simp [ih a b s t hab]

theorem mem_fsRmtree {fs : FS} {p q : List Str} :
    q ∈ fsRmtree fs p ↔ q ∈ (fs : List (List Str)) ∧ isPre p q = false := by
  unfold fsRmtree
  rw [List.mem_filter]
  simp

theorem mem_fsUnlink {fs : FS} {p q : List Str} :
    q ∈ fsUnlink fs p ↔ q ∈ (fs : List (List Str)) ∧ q ≠ p := by
  unfold fsUnlink
  rw [List.mem_filter]
  simp

theorem fsExists_iff {fs : FS} {p : List Str} :
    fsExists fs p = true ↔ ∃ q ∈ (fs : List (List Str)), isPre p q = true := by
  unfold fsExists
  rw [List.any_eq_true]

theorem fsExists_cons {fs : FS} {r p : List Str} (h : fsExists fs p = true) :
    fsExists (r :: (fs : List (List Str)) : FS) p = true := by
  rcases fsExists_iff.mp h with ⟨q, hq, hpre⟩
  exact fsExists_iff.mpr ⟨q, List.mem_cons_of_mem _ hq, hpre⟩

theorem fsExists_rmtree_self (fs : FS) (p : List Str) :
    fsExists (fsRmtree fs p) p = false := by
  cases hx : fsExists (fsRmtree fs p) p with
  | false => rfl
  | true =>
      rcases fsExists_iff.mp hx with ⟨q, hq, hpre⟩
      have h2 := (mem_fsRmtree.mp hq).2
      rw [hpre] at h2
      exact Bool.noConfusion h2

theorem fsExists_rmtree_other {fs : FS} {P r : List Str}
    (h1 : isPre P r = false) (h2 : isPre r P = false)
    (h : fsExists fs P = true) : fsExists (fsRmtree fs r) P = true := by
  rcases fsExists_iff.mp h with ⟨q, hq, hpre⟩
  refine fsExists_iff.mpr ⟨q, ?_, hpre⟩
  rw [mem_fsRmtree]
  refine ⟨hq, ?_⟩
  by_contra hc
  have hrq : isPre r q = true := by
    revert hc; cases hx : isPre r q <;> simp
  rcases isPre_comparable q P r hpre hrq with hh | hh
  · rw [hh] at h1; exact Bool.noConfusion h1
  · rw [hh] at h2; exact Bool.noConfusion h2

theorem fsExists_unlink_other {fs : FS} {P r : List Str}
    (h1 : isPre P r = false)
    (h : fsExists fs P = true) : fsExists (fsUnlink fs r) P = true := by
  rcases fsExists_iff.mp h with ⟨q, hq, hpre⟩
  refine fsExists_iff.mpr ⟨q, ?_, hpre⟩
  rw [mem_fsUnlink]
  refine ⟨hq, ?_⟩
  rintro rfl
  rw [hpre] at h1
  exact Bool.noConfusion h1

theorem fsExists_replace_other {fs : FS} {src dst P : List Str}
    (h1 : isPre P src = false) (h2 : isPre src P = false)
    (h : fsExists fs P = true) : fsExists (fsReplace fs src dst) P = true := by
  rcases fsExists_iff.mp h with ⟨q, hq, hpre⟩
  have hfix : isPre src q = false := by
    by_contra hc
    have hsq : isPre src q = true := by
      revert hc; cases hx : isPre src q <;> simp
    rcases isPre_comparable q src P hsq hpre with hh | hh
    · rw [hh] at h2; exact Bool.noConfusion h2
    · rw [hh] at h1; exact Bool.noConfusion h1
  refine fsExists_iff.mpr ⟨q, ?_, hpre⟩
  unfold fsReplace
  have hfq : (if isPre src q = true then dst ++ q.drop src.length else q) = q := by
    rw [hfix]
    simp
  exact hfq ▸ List.mem_map_of_mem _ hq

/-! ## Shapes of the filing paths -/

theorem splitOnChar_ne_nil (c : Char) : ∀ (s : Str), splitOnChar c s ≠ [] := by
  intro s
  induction s with
  | nil => simp [splitOnChar]
  | cons a rest ih =>
      unfold splitOnChar
      by_cases h : (a == c) = true
      · rw [if_pos h]; simp
      · rw [if_neg h]
        cases hr : splitOnChar c rest with
        | nil => simp
        | cons p ps => simp

theorem pjoin_shape (p : List Str) (s : Str) :
    ∃ x : List Str, x ≠ [] ∧ pjoin p s = p ++ x :=
  ⟨splitOnChar '/' s, splitOnChar_ne_nil '/' s, rfl⟩

theorem outDirOf_shape (cfg : DlConfig) (row : MasterIndexRow) :
    ∃ rest : List Str, rest ≠ [] ∧
      outDirOf cfg row = cfg.dataDir ++ S "filings" :: rest := by
  unfold outDirOf filing_dir
  have hsp : splitOnChar '/' (S "filings") = [S "filings"] := by decide
  cases cfg.groupLabel with
  | none =>
      dsimp only
      refine ⟨splitOnChar '/' (form_dir_name row.form_type) ++
        (splitOnChar '/' (zfill row.cik 10) ++ splitOnChar '/' row.accession),
        ?_, ?_⟩
      · exact List.append_ne_nil_of_left_ne_nil (splitOnChar_ne_nil _ _) _
      · simp [pjoin, hsp, List.append_assoc]
  | some g =>
      dsimp only
      by_cases hge : g.isEmpty = true
      · rw [if_neg (by simp [hge])]
        refine ⟨splitOnChar '/' (form_dir_name row.form_type) ++
          (splitOnChar '/' (zfill row.cik 10) ++ splitOnChar '/' row.accession),
          ?_, ?_⟩
        · exact List.append_ne_nil_of_left_ne_nil (splitOnChar_ne_nil _ _) _
        · simp [pjoin, hsp, List.append_assoc]
      · rw [if_pos (by revert hge; cases List.isEmpty g <;> simp)]
        refine ⟨splitOnChar '/' (form_dir_name row.form_type) ++
          (splitOnChar '/' g ++ splitOnChar '/' row.accession), ?_, ?_⟩
        · exact List.append_ne_nil_of_left_ne_nil (splitOnChar_ne_nil _ _) _
        · simp [pjoin, hsp, List.append_assoc]

theorem tarPathOf_shape (cfg : DlConfig) (row : MasterIndexRow) :
    ∃ rest : List Str, rest ≠ [] ∧
      tarPathOf cfg row = cfg.dataDir ++ S "filings_tar" :: rest := by
  unfold tarPathOf _filing_tar_path
  have hsp : splitOnChar '/' (S "filings_tar") = [S "filings_tar"] := by decide
  refine ⟨splitOnChar '/' row.form_type ++
    (splitOnChar '/' (zfill row.cik 10) ++
      splitOnChar '/' (row.accession ++ S ".tar")), ?_, ?_⟩
  · exact List.append_ne_nil_of_left_ne_nil (splitOnChar_ne_nil _ _) _
  · simp [pjoin, hsp, List.append_assoc]

theorem withName_shape {dd : List Str} {hd : Str} {rest : List Str}
    (hne : rest ≠ []) (name : Str) :
    withName (dd ++ hd :: rest) name =
      dd ++ hd :: (rest.dropLast ++ [name]) := by
  unfold withName
  rw [show dd ++ hd :: rest = (dd ++ [hd]) ++ rest by simp]
  rw [List.dropLast_append_of_ne_nil _ hne]
  simp

theorem tmpDirOf_shape (cfg : DlConfig) (row : MasterIndexRow) :
    ∃ rest : List Str, tmpDirOf cfg row = cfg.dataDir ++ S "filings" :: rest := by
  rcases outDirOf_shape cfg row with ⟨rest, hne, heq⟩
  unfold tmpDirOf
  rw [heq, withName_shape hne]
  exact ⟨_, rfl⟩

theorem tmpTarOf_shape (cfg : DlConfig) (row : MasterIndexRow) :
    ∃ rest : List Str, tmpTarOf cfg row = cfg.dataDir ++ S "filings_tar" :: rest := by
  rcases tarPathOf_shape cfg row with ⟨rest, hne, heq⟩
  unfold tmpTarOf withSuffix
  rw [heq]
  cases hl : (cfg.dataDir ++ S "filings_tar" :: rest).getLast? with
  | none =>
      exfalso
      rw [List.getLast?_eq_none_iff] at hl
      exact absurd hl (by simp)
  | some name =>
      rw [show cfg.dataDir ++ S "filings_tar" :: rest =
        (cfg.dataDir ++ [S "filings_tar"]) ++ rest by simp]
      rw [List.dropLast_append_of_ne_nil _ hne]
      exact ⟨rest.dropLast ++ [(splitSuffix name).1 ++ S ".tmp"], by simp⟩

/-! ## Behaviour of the body stages -/

theorem fetchFiles_cons_err {net : NetOracle} {tmpDir : List Str}
    {f : FileEntry} {rest : List FileEntry} {fs : FS} {reqs : List Str}
    {msg : Str} (hb : net.getBytes f.href = .error msg) :
    fetchFiles net tmpDir (f :: rest) fs reqs =
      .error (msg, fs, reqs ++ [f.href]) := by
  unfold fetchFiles
  rw [hb]

theorem fetchFiles_cons_ok {net : NetOracle} {tmpDir : List Str}
    {f : FileEntry} {rest : List FileEntry} {fs : FS} {reqs : List Str}
    (hb : net.getBytes f.href = .ok ()) :
    fetchFiles net tmpDir (f :: rest) fs reqs =
      fetchFiles net tmpDir rest (fsWrite fs (pjoin tmpDir f.name))
        (reqs ++ [f.href]) := by
  conv_lhs => unfold fetchFiles
  rw [hb]

theorem fetchFiles_error_mem (net : NetOracle) (tmpDir : List Str) :
    ∀ (files : List FileEntry) (fs : FS) (reqs : List Str) (e : Str)
      (fsE : FS) (rq : List Str),
      fetchFiles net tmpDir files fs reqs = .error (e, fsE, rq) →
      ∀ q ∈ (fsE : List (List Str)),
        q ∈ (fs : List (List Str)) ∨ ∃ name, q = pjoin tmpDir name := by
  intro files
  induction files with
  | nil =>
      intro fs reqs e fsE rq h
      exact absurd h (by simp [fetchFiles])
  | cons f rest ih =>
      intro fs reqs e fsE rq h q hq
      cases hb : net.getBytes f.href with
      | error msg =>
          rw [fetchFiles_cons_err hb] at h
          simp only [Except.error.injEq, Prod.mk.injEq] at h
          rcases h with ⟨_, h5, _⟩
          rw [← h5] at hq
          exact Or.inl hq
      | ok u =>
          cases u
          rw [fetchFiles_cons_ok hb] at h
          rcases ih _ _ _ _ _ h q hq with hin | hnew
          · rcases List.mem_cons.mp hin with rfl | hin2
            · exact Or.inr ⟨f.name, rfl⟩
            · exact Or.inl hin2
          · exact Or.inr hnew

theorem fetchFiles_superset_err (net : NetOracle) (tmpDir : List Str) :
    ∀ (files : List FileEntry) (fs : FS) (reqs : List Str) (e : Str)
      (fsE : FS) (rq : List Str),
      fetchFiles net tmpDir files fs reqs = .error (e, fsE, rq) →
      ∀ q ∈ (fs : List (List Str)), q ∈ (fsE : List (List Str)) := by
  intro files
  induction files with
  | nil =>
      intro fs reqs e fsE rq h
      exact absurd h (by simp [fetchFiles])
  | cons f rest ih =>
      intro fs reqs e fsE rq h q hq
      cases hb : net.getBytes f.href with
      | error msg =>
          rw [fetchFiles_cons_err hb] at h
          simp only [Except.error.injEq, Prod.mk.injEq] at h
          rcases h with ⟨_, h5, _⟩
          rw [← h5]
          exact hq
      | ok u =>
          cases u
          rw [fetchFiles_cons_ok hb] at h
          exact ih _ _ _ _ _ h q (List.mem_cons_of_mem _ hq)

theorem fetchFiles_superset_ok (net : NetOracle) (tmpDir : List Str) :
    ∀ (files : List FileEntry) (fs : FS) (reqs : List Str)
      (f2 : FS) (rq : List Str),
      fetchFiles net tmpDir files fs reqs = .ok (f2, rq) →
      ∀ q ∈ (fs : List (List Str)), q ∈ (f2 : List (List Str)) := by
  intro files
  induction files with
  | nil =>
      intro fs reqs f2 rq h
      simp only [fetchFiles, Except.ok.injEq, Prod.mk.injEq] at h
      rcases h with ⟨h1, _⟩
      rw [← h1]
      exact fun q hq => hq
  | cons f rest ih =>
      intro fs reqs f2 rq h q hq
      cases hb : net.getBytes f.href with
      | error msg =>
          rw [fetchFiles_cons_err hb] at h
          exact absurd h (by simp)
      | ok u =>
          cases u
          rw [fetchFiles_cons_ok hb] at h
          exact ih _ _ _ _ h q (List.mem_cons_of_mem _ hq)

theorem mem_stageReset {fs : FS} {tmpDir tmpTar : List Str} {q : List Str}
    (hq : q ∈ (stageReset fs tmpDir tmpTar : List (List Str))) :
    q = tmpDir ∨ q ∈ (fs : List (List Str)) := by
  unfold stageReset at hq
  rcases List.mem_cons.mp hq with rfl | hq2
  · exact Or.inl rfl
  · right
    by_cases h1 : fsExists fs tmpDir = true
    · rw [if_pos h1] at hq2
      by_cases h2 : fsExists (fsRmtree fs tmpDir) tmpTar = true
      · rw [if_pos h2] at hq2
        exact (mem_fsRmtree.mp (mem_fsUnlink.mp hq2).1).1
      · rw [if_neg h2] at hq2
        exact (mem_fsRmtree.mp hq2).1
    · rw [if_neg h1] at hq2
      by_cases h2 : fsExists fs tmpTar = true
      · rw [if_pos h2] at hq2
        exact (mem_fsUnlink.mp hq2).1
      · rw [if_neg h2] at hq2
        exact hq2

theorem stageReset_preserves {fs : FS} {tmpDir tmpTar P : List Str}
    (hd1 : isPre P tmpDir = false) (hd2 : isPre tmpDir P = false)
    (ht1 : isPre P tmpTar = false)
    (h : fsExists fs P = true) :
    fsExists (stageReset fs tmpDir tmpTar) P = true := by
  unfold stageReset
  have step1 : fsExists (if fsExists fs tmpDir then fsRmtree fs tmpDir else fs)
      P = true := by
    by_cases h1 : fsExists fs tmpDir = true
    · rw [if_pos h1]
      exact fsExists_rmtree_other hd1 hd2 h
    · rw [if_neg h1]
      exact h
  have step2 : fsExists
      (if fsExists (if fsExists fs tmpDir then fsRmtree fs tmpDir else fs) tmpTar
       then fsUnlink (if fsExists fs tmpDir then fsRmtree fs tmpDir else fs) tmpTar
       else (if fsExists fs tmpDir then fsRmtree fs tmpDir else fs)) P = true := by
    by_cases h2 : fsExists (if fsExists fs tmpDir then fsRmtree fs tmpDir else fs)
        tmpTar = true
    · rw [if_pos h2]
      exact fsExists_unlink_other ht1 step1
    · rw [if_neg h2]
      exact step1
  exact fsExists_cons step2

theorem commitFiles_preserves {fs : FS} {outDir tmpDir P : List Str}
    (ho1 : isPre P outDir = false) (ho2 : isPre outDir P = false)
    (hd1 : isPre P tmpDir = false) (hd2 : isPre tmpDir P = false)
    (h : fsExists fs P = true) :
    fsExists (commitFiles fs outDir tmpDir) P = true := by
  unfold commitFiles
  have step1 : fsExists (fsMkdir fs outDir.dropLast) P = true := fsExists_cons h
  have step2 : fsExists (if fsExists (fsMkdir fs outDir.dropLast) outDir
      then fsRmtree (fsMkdir fs outDir.dropLast) outDir
      else fsMkdir fs outDir.dropLast) P = true := by
    by_cases h2 : fsExists (fsMkdir fs outDir.dropLast) outDir = true
    · rw [if_pos h2]
      exact fsExists_rmtree_other ho1 ho2 step1
    · rw [if_neg h2]
      exact step1
  exact fsExists_replace_other hd1 hd2 step2

theorem commitTar_preserves {fs : FS} {tarPath tmpTar tmpDir P : List Str}
    (hp1 : isPre P tarPath = false)
    (ht1 : isPre P tmpTar = false) (ht2 : isPre tmpTar P = false)
    (hd1 : isPre P tmpDir = false) (hd2 : isPre tmpDir P = false)
    (h : fsExists fs P = true) :
    fsExists (commitTar fs tarPath tmpTar tmpDir) P = true := by
  unfold commitTar
  have step1 : fsExists (fsWrite (fsMkdir fs tarPath.dropLast) tmpTar) P = true :=
    fsExists_cons (fsExists_cons h)
  have step2 : fsExists
      (if fsExists (fsWrite (fsMkdir fs tarPath.dropLast) tmpTar) tarPath
       then fsUnlink (fsWrite (fsMkdir fs tarPath.dropLast) tmpTar) tarPath
       else fsWrite (fsMkdir fs tarPath.dropLast) tmpTar) P = true := by
    by_cases h2 : fsExists (fsWrite (fsMkdir fs tarPath.dropLast) tmpTar)
        tarPath = true
    · rw [if_pos h2]
      exact fsExists_unlink_other hp1 step1
    · rw [if_neg h2]
      exact step1
  exact fsExists_rmtree_other hd1 hd2 (fsExists_replace_other ht1 ht2 step2)

theorem fsExists_of_superset {fs fs2 : FS} {P : List Str}
    (hsub : ∀ q ∈ (fs : List (List Str)), q ∈ (fs2 : List (List Str)))
    (h : fsExists fs P = true) : fsExists fs2 P = true := by
  rcases fsExists_iff.mp h with ⟨q, hq, hpre⟩
  exact fsExists_iff.mpr ⟨q, hsub q hq, hpre⟩

theorem downloadBody_error_mem {cfg : DlConfig} {man : Manifest} {fs : FS}
    {net : NetOracle} {row : MasterIndexRow}
    {outDir tarPath tmpDir tmpTar : List Str} {e : Str} {fsE : FS}
    {rq : List Str}
    (h : downloadBody cfg man fs net row outDir tarPath tmpDir tmpTar =
      .error (e, fsE, rq)) :
    ∀ q ∈ (fsE : List (List Str)),
      q ∈ (fs : List (List Str)) ∨ q = tmpDir ∨ ∃ name, q = pjoin tmpDir name := by
  intro q hq
  simp only [downloadBody] at h
  split at h
  · rename_i iu bu _
    split at h
    · simp only [Except.error.injEq, Prod.mk.injEq] at h
      rcases h with ⟨_, h5, _⟩
      rw [← h5] at hq
      rcases mem_stageReset hq with h6 | h6
      · exact Or.inr (Or.inl h6)
      · exact Or.inl h6
    · split at h
      · simp only [Except.error.injEq, Prod.mk.injEq] at h
        rcases h with ⟨_, h5, _⟩
        rw [← h5] at hq
        rcases mem_stageReset hq with h6 | h6
        · exact Or.inr (Or.inl h6)
        · exact Or.inl h6
      · split at h
        · simp only [Except.error.injEq, Prod.mk.injEq] at h
          rcases h with ⟨_, h5, _⟩
          rw [← h5] at hq
          rcases mem_stageReset hq with h6 | h6
          · exact Or.inr (Or.inl h6)
          · exact Or.inl h6
        · split at h
          · rename_i t heq
            rw [Except.error.inj h] at heq
            rcases fetchFiles_error_mem net tmpDir _ _ _ _ _ _ heq q hq with
              h6 | h6
            · rcases mem_stageReset h6 with h7 | h7
              · exact Or.inr (Or.inl h7)
              · exact Or.inl h7
            · exact Or.inr (Or.inr h6)
          · split at h <;> exact Except.noConfusion h
  · simp only [Except.error.injEq, Prod.mk.injEq] at h
    rcases h with ⟨_, h5, _⟩
    rw [← h5] at hq
    rcases mem_stageReset hq with h6 | h6
    · exact Or.inr (Or.inl h6)
    · exact Or.inl h6

theorem downloadBody_error_preserves {cfg : DlConfig} {man : Manifest} {fs : FS}
    {net : NetOracle} {row : MasterIndexRow}
    {outDir tarPath tmpDir tmpTar P : List Str} {e : Str} {fsE : FS}
    {rq : List Str}
    (hd1 : isPre P tmpDir = false) (hd2 : isPre tmpDir P = false)
    (ht1 : isPre P tmpTar = false)
    (hfs : fsExists fs P = true)
    (h : downloadBody cfg man fs net row outDir tarPath tmpDir tmpTar =
      .error (e, fsE, rq)) :
    fsExists fsE P = true := by
  have hstage : fsExists (stageReset fs tmpDir tmpTar) P = true :=
    stageReset_preserves hd1 hd2 ht1 hfs
  simp only [downloadBody] at h
  split at h
  · split at h
    · simp only [Except.error.injEq, Prod.mk.injEq] at h
      rcases h with ⟨_, h5, _⟩
      rw [← h5]
      exact hstage
    · split at h
      · simp only [Except.error.injEq, Prod.mk.injEq] at h
        rcases h with ⟨_, h5, _⟩
        rw [← h5]
        exact hstage
      · split at h
        · simp only [Except.error.injEq, Prod.mk.injEq] at h
          rcases h with ⟨_, h5, _⟩
          rw [← h5]
          exact hstage
        · split at h
          · rename_i t heq
            rw [Except.error.inj h] at heq
            exact fsExists_of_superset
              (fetchFiles_superset_err net tmpDir _ _ _ _ _ _ heq) hstage
          · split at h <;> exact Except.noConfusion h
  · simp only [Except.error.injEq, Prod.mk.injEq] at h
    rcases h with ⟨_, h5, _⟩
    rw [← h5]
    exact hstage

theorem downloadBody_ok_preserves {cfg : DlConfig} {man : Manifest} {fs : FS}
    {net : NetOracle} {row : MasterIndexRow}
    {outDir tarPath tmpDir tmpTar P : List Str} {p : List Str} {m2 : Manifest}
    {f2 : FS} {rq : List Str}
    (hd1 : isPre P tmpDir = false) (hd2 : isPre tmpDir P = false)
    (ht1 : isPre P tmpTar = false) (ht2 : isPre tmpTar P = false)
    (ho1 : isPre P outDir = false) (ho2 : isPre outDir P = false)
    (hp1 : isPre P tarPath = false)
    (hfs : fsExists fs P = true)
    (h : downloadBody cfg man fs net row outDir tarPath tmpDir tmpTar =
      .ok (p, m2, f2, rq)) :
    fsExists f2 P = true := by
  have hstage : fsExists (stageReset fs tmpDir tmpTar) P = true :=
    stageReset_preserves hd1 hd2 ht1 hfs
  simp only [downloadBody] at h
  split at h
  · split at h
    · exact Except.noConfusion h
    · split at h
      · exact Except.noConfusion h
      · split at h
        · exact Except.noConfusion h
        · split at h
          · exact Except.noConfusion h
          · rename_i heq
            split at h
            · simp only [Except.ok.injEq, Prod.mk.injEq] at h
              rcases h with ⟨_, _, h6, _⟩
              rw [← h6]
              exact commitFiles_preserves ho1 ho2 hd1 hd2
                (fsExists_of_superset
                  (fetchFiles_superset_ok net tmpDir _ _ _ _ _ heq) hstage)
            · simp only [Except.ok.injEq, Prod.mk.injEq] at h
              rcases h with ⟨_, _, h6, _⟩
              rw [← h6]
              exact commitTar_preserves hp1 ht1 ht2 hd1 hd2
                (fsExists_of_superset
                  (fetchFiles_superset_ok net tmpDir _ _ _ _ _ heq) hstage)
  · exact Except.noConfusion h

/-! ## `downloadOne` equations and preservation -/

theorem isPre_append : ∀ (p r : List Str), isPre p (p ++ r) = true := by
  intro p r
  induction p with
  | nil => rfl
  | cons a as ih => simp [isPre, ih]

theorem isPre_trans :
    ∀ (a b c : List Str), isPre a b = true → isPre b c = true →
      isPre a c = true := by
  intro a
  induction a with
  | nil => intro b c _ _; rfl
  | cons x xs ih =>
      intro b c hab hbc
      cases b with
      | nil => exact absurd hab (by simp [isPre])
      | cons y ys =>
          cases c with
          | nil => exact absurd hbc (by simp [isPre])
          | cons z zs =>
              simp only [isPre, Bool.and_eq_true, beq_iff_eq] at hab hbc ⊢
              exact ⟨hab.1.trans hbc.1, ih ys zs hab.2 hbc.2⟩

theorem indexPath_incompat (cfg : DlConfig) (row : MasterIndexRow) (t : List Str) :
    isPre (cfg.dataDir ++ S "index" :: t) (tmpDirOf cfg row) = false ∧
    isPre (tmpDirOf cfg row) (cfg.dataDir ++ S "index" :: t) = false ∧
    isPre (cfg.dataDir ++ S "index" :: t) (tmpTarOf cfg row) = false ∧
    isPre (tmpTarOf cfg row) (cfg.dataDir ++ S "index" :: t) = false ∧
    isPre (cfg.dataDir ++ S "index" :: t) (outDirOf cfg row) = false ∧
    isPre (outDirOf cfg row) (cfg.dataDir ++ S "index" :: t) = false ∧
    isPre (cfg.dataDir ++ S "index" :: t) (tarPathOf cfg row) = false := by
  obtain ⟨r1, h1⟩ := tmpDirOf_shape cfg row
  obtain ⟨r2, h2⟩ := tmpTarOf_shape cfg row
  obtain ⟨r3, _, h3⟩ := outDirOf_shape cfg row
  obtain ⟨r4, _, h4⟩ := tarPathOf_shape cfg row
  refine ⟨?_, ?_, ?_, ?_, ?_, ?_, ?_⟩
  · rw [h1]; exact isPre_ne_head cfg.dataDir _ _ t r1 (by decide)
  · rw [h1]; exact isPre_ne_head cfg.dataDir _ _ r1 t (by decide)
  · rw [h2]; exact isPre_ne_head cfg.dataDir _ _ t r2 (by decide)
  · rw [h2]; exact isPre_ne_head cfg.dataDir _ _ r2 t (by decide)
  · rw [h3]; exact isPre_ne_head cfg.dataDir _ _ t r3 (by decide)
  · rw [h3]; exact isPre_ne_head cfg.dataDir _ _ r3 t (by decide)
  · rw [h4]; exact isPre_ne_head cfg.dataDir _ _ t r4 (by decide)

theorem cleanupStaging_preserves {cfg : DlConfig} {row : MasterIndexRow}
    {fsE : FS} {P : List Str}
    (hd1 : isPre P (tmpDirOf cfg row) = false)
    (hd2 : isPre (tmpDirOf cfg row) P = false)
    (ht1 : isPre P (tmpTarOf cfg row) = false)
    (h : fsExists fsE P = true) :
    fsExists (cleanupStaging cfg row fsE) P = true := by
  unfold cleanupStaging
  have step1 : fsExists (if fsExists fsE (tmpDirOf cfg row)
      then fsRmtree fsE (tmpDirOf cfg row) else fsE) P = true := by
    by_cases h1 : fsExists fsE (tmpDirOf cfg row) = true
    · rw [if_pos h1]; exact fsExists_rmtree_other hd1 hd2 h
    · rw [if_neg h1]; exact h
  by_cases h2 : fsExists (if fsExists fsE (tmpDirOf cfg row)
      then fsRmtree fsE (tmpDirOf cfg row) else fsE) (tmpTarOf cfg row) = true
  · rw [if_pos h2]; exact fsExists_unlink_other ht1 step1
  · rw [if_neg h2]; exact step1

theorem downloadOne_skip_eq {cfg : DlConfig} {man : Manifest} {fs : FS}
    {net : NetOracle} {row : MasterIndexRow}
    (h : skipCheck cfg man fs row = true) :
    (downloadOne cfg man fs net row).result.status = S "skipped" ∧
    (downloadOne cfg man fs net row).man = man ∧
    (downloadOne cfg man fs net row).fs = fs ∧
    (downloadOne cfg man fs net row).requests = [] := by
  unfold downloadOne
  rw [if_pos h]
  cases cfg.outputMode <;> exact ⟨rfl, rfl, rfl, rfl⟩

theorem downloadOne_noskip_ok {cfg : DlConfig} {man : Manifest} {fs : FS}
    {net : NetOracle} {row : MasterIndexRow} {p : List Str} {m2 : Manifest}
    {f2 : FS} {rq : List Str}
    (h : skipCheck cfg man fs row = false)
    (hb : downloadBody cfg man fs net row (outDirOf cfg row) (tarPathOf cfg row)
      (tmpDirOf cfg row) (tmpTarOf cfg row) = .ok (p, m2, f2, rq)) :
    downloadOne cfg man fs net row =
      ⟨⟨row.accession, row.cik, row.form_type, row.date_filed, S "downloaded",
        none, some p⟩, m2, f2, rq⟩ := by
  unfold downloadOne
  rw [if_neg (by simp [h]), hb]

theorem downloadOne_noskip_error {cfg : DlConfig} {man : Manifest} {fs : FS}
    {net : NetOracle} {row : MasterIndexRow} {e : Str} {fsE : FS}
    {rq : List Str}
    (h : skipCheck cfg man fs row = false)
    (hb : downloadBody cfg man fs net row (outDirOf cfg row) (tarPathOf cfg row)
      (tmpDirOf cfg row) (tmpTarOf cfg row) = .error (e, fsE, rq)) :
    downloadOne cfg man fs net row =
      ⟨⟨row.accession, row.cik, row.form_type, row.date_filed, S "error",
        some e, none⟩, man, cleanupStaging cfg row fsE, rq⟩ := by
  unfold downloadOne
  rw [if_neg (by simp [h]), hb]

theorem downloadOne_preserves_index (cfg : DlConfig) (man : Manifest) (fs : FS)
    (net : NetOracle) (row : MasterIndexRow) (t : List Str)
    (h : fsExists fs (cfg.dataDir ++ S "index" :: t) = true) :
    fsExists (downloadOne cfg man fs net row).fs
      (cfg.dataDir ++ S "index" :: t) = true := by
  obtain ⟨i1, i2, i3, i4, i5, i6, i7⟩ := indexPath_incompat cfg row t
  by_cases hs : skipCheck cfg man fs row = true
  · rw [(downloadOne_skip_eq hs).2.2.1]
    exact h
  · have hs2 : skipCheck cfg man fs row = false := by
      revert hs; cases skipCheck cfg man fs row <;> simp
    cases hb : downloadBody cfg man fs net row (outDirOf cfg row)
        (tarPathOf cfg row) (tmpDirOf cfg row) (tmpTarOf cfg row) with
    | ok val =>
        obtain ⟨p, m2, f2, rq⟩ := val
        rw [downloadOne_noskip_ok hs2 hb]
        exact downloadBody_ok_preserves i1 i2 i3 i4 i5 i6 i7 h hb
    | error err =>
        obtain ⟨e, fsE, rq⟩ := err
        rw [downloadOne_noskip_error hs2 hb]
        exact cleanupStaging_preserves i1 i2 i3
          (downloadBody_error_preserves i1 i2 i3 h hb)

theorem runTasks_preserves_index (cfg : DlConfig) (net : QuarterOracle) :
    ∀ (rows : List MasterIndexRow) (man : Manifest) (fs : FS) (t : List Str),
      fsExists fs (cfg.dataDir ++ S "index" :: t) = true →
      fsExists (runTasks cfg net rows man fs).2.2
        (cfg.dataDir ++ S "index" :: t) = true := by
  intro rows
  induction rows with
  | nil => intro man fs t h; exact h
  | cons row rest ih =>
      intro man fs t h
      unfold runTasks
      exact ih _ _ t (downloadOne_preserves_index cfg man fs (net.perRow row) row t h)

/-! ## Claim C4: the quarter cache policy -/

theorem cachePath_shape (dd : List Str) (y q : Nat) :
    ∃ rest : List Str, rest ≠ [] ∧
      master_index_cache_path dd y q = dd ++ S "index" :: rest := by
  unfold master_index_cache_path
  refine ⟨splitOnChar '/' (S "master") ++ (splitOnChar '/' (natToStr y) ++
    (splitOnChar '/' (S "QTR" ++ natToStr q) ++ splitOnChar '/' (S "master.idx"))),
    ?_, ?_⟩
  · exact List.append_ne_nil_of_left_ne_nil (splitOnChar_ne_nil _ _) _
  · simp [pjoin, show splitOnChar '/' (S "index") = [S "index"] from by decide,
      List.append_assoc]

theorem fsExists_dropLast {fs : FS} {p : List Str} (hne : p ≠ [])
    (h : fsExists fs p = true) : fsExists fs p.dropLast = true := by
  rcases fsExists_iff.mp h with ⟨w, hw, hpre⟩
  refine fsExists_iff.mpr ⟨w, hw, isPre_trans _ _ _ ?_ hpre⟩
  have hsplit : p.dropLast ++ [p.getLast hne] = p := List.dropLast_append_getLast hne
  nth_rewrite 2 [← hsplit]
  exact isPre_append _ _

theorem download_master_index_ok {fs : FS} {net : QuarterOracle}
    {dd : List Str} {y q : Nat} {fs1 : FS} {mp : List Str}
    (h : download_master_index fs net dd y q = .ok (fs1, mp)) :
    mp = master_index_cache_path dd y q ∧ fsExists fs1 mp = true ∧
    ∀ w ∈ (fs : List (List Str)), w ∈ (fs1 : List (List Str)) := by
  unfold download_master_index at h
  by_cases hc : fsExists fs (master_index_cache_path dd y q) = true
  · rw [if_pos hc] at h
    simp only [Except.ok.injEq, Prod.mk.injEq] at h
    rcases h with ⟨h1, h2⟩
    rw [← h1, ← h2]
    exact ⟨rfl, hc, fun w hw => hw⟩
  · rw [if_neg hc] at h
    cases hf : net.masterFetch with
    | error e => rw [hf] at h; exact Except.noConfusion h
    | ok u =>
        cases u
        rw [hf] at h
        simp only [Except.ok.injEq, Prod.mk.injEq] at h
        rcases h with ⟨h1, h2⟩
        rw [← h1, ← h2]
        refine ⟨rfl, ?_, ?_⟩
        · exact fsExists_iff.mpr ⟨master_index_cache_path dd y q,
            List.mem_cons_self _ _, isPre_refl _⟩
        · intro w hw
          exact List.mem_cons_of_mem _ (List.mem_cons_of_mem _ hw)

theorem download_quarter_eq {cfg : DlConfig} {flt : FilingFilter}
    {cikSet : Option (List Str)} {manifestPath : List Str}
    {net : QuarterOracle} {year quarter : Nat} {man : Manifest} {fs : FS}
    {fs1 : FS} {mp : List Str} {rows : List MasterIndexRow}
    (hm : download_master_index fs net cfg.dataDir year quarter = .ok (fs1, mp))
    (hp : parse_master_index net.masterLines = .ok rows) :
    download_quarter cfg flt cikSet manifestPath net year quarter man fs =
      .ok ((runTasks cfg net (applyCikFilter cikSet (filter_master_rows rows flt))
              man fs1).1,
           (runTasks cfg net (applyCikFilter cikSet (filter_master_rows rows flt))
              man fs1).2.1,
           if (runTasks cfg net (applyCikFilter cikSet (filter_master_rows rows flt))
                man fs1).1.all (fun r => r.status ≠ S "error") then
             (if fsExists (fsWrite (runTasks cfg net
                  (applyCikFilter cikSet (filter_master_rows rows flt))
                  man fs1).2.2 manifestPath) mp.dropLast then
                fsRmtree (fsWrite (runTasks cfg net
                  (applyCikFilter cikSet (filter_master_rows rows flt))
                  man fs1).2.2 manifestPath) mp.dropLast
              else fsWrite (runTasks cfg net
                  (applyCikFilter cikSet (filter_master_rows rows flt))
                  man fs1).2.2 manifestPath)
           else fsWrite (runTasks cfg net
               (applyCikFilter cikSet (filter_master_rows rows flt))
               man fs1).2.2 manifestPath) := by
  simp only [download_quarter]
  rw [hm, hp]

/-- C4 (amended): for `FilingDownloader.download_quarter` (and the `local`
tar provider, which delegates to it) the claimed policy holds — when every
result has status other than `error` the quarter cache directory
`{data}/index/master/{year}/QTR{q}` does not exist afterwards, and when at
least one result has status `error` it still exists.  The datamule-provider
`download_quarter_tar` path instead removes the cache unconditionally on
completion (see the counterexample). -/
theorem C4_quarter_cache_policy :
    ∀ (cfg : DlConfig) (flt : FilingFilter) (cikSet : Option (List Str))
      (manifestPath : List Str) (net : QuarterOracle) (year quarter : Nat)
      (man : Manifest) (fs : FS) (results : List DownloadResult)
      (man2 : Manifest) (fs2 : FS),
      download_quarter cfg flt cikSet manifestPath net year quarter man fs =
        .ok (results, man2, fs2) →
      ((∀ r ∈ results, r.status ≠ S "error") →
        fsExists fs2 (master_index_cache_path cfg.dataDir year quarter).dropLast
          = false) ∧
      ((∃ r ∈ results, r.status = S "error") →
        fsExists fs2 (master_index_cache_path cfg.dataDir year quarter).dropLast
          = true) := by
  intro cfg flt cikSet manifestPath net year quarter man fs results man2 fs2 h
  cases hm : download_master_index fs net cfg.dataDir year quarter with
  | error e =>
      exfalso
      simp only [download_quarter] at h
      rw [hm] at h
      exact Except.noConfusion h
  | ok pr =>
      obtain ⟨fs1, mp⟩ := pr
      obtain ⟨hmp, hfs1, hsup⟩ := download_master_index_ok hm
      cases hp : parse_master_index net.masterLines with
      | error e =>
          exfalso
          simp only [download_quarter] at h
          rw [hm, hp] at h
          exact Except.noConfusion h
      | ok rows =>
          rw [download_quarter_eq hm hp] at h
          set RT := runTasks cfg net
            (applyCikFilter cikSet (filter_master_rows rows flt)) man fs1 with hRT
          simp only [Except.ok.injEq, Prod.mk.injEq] at h
          obtain ⟨h1, h2, h3⟩ := h
          subst h1
          subst h2
          constructor
          · intro hall
            have hallb : (RT.1.all (fun r => decide (r.status ≠ S "error"))) = true := by
              rw [List.all_eq_true]
              intro r hr
              exact decide_eq_true (hall r hr)
            rw [if_pos hallb] at h3
            by_cases hex : fsExists (fsWrite RT.2.2 manifestPath) mp.dropLast = true
            · rw [if_pos hex] at h3
              rw [← h3, hmp]
              exact fsExists_rmtree_self _ _
            · rw [if_neg hex] at h3
              rw [← h3]
              rw [hmp] at hex
              revert hex
              cases fsExists (fsWrite RT.2.2 manifestPath)
                  (master_index_cache_path cfg.dataDir year quarter).dropLast <;>
                simp
          · intro hex
            have hallb : (RT.1.all (fun r => decide (r.status ≠ S "error"))) = false := by
              rcases hex with ⟨r, hr, hstat⟩
              cases hb : RT.1.all (fun r => decide (r.status ≠ S "error")) with
              | false => rfl
              | true =>
                  rw [List.all_eq_true] at hb
                  exact absurd hstat (of_decide_eq_true (hb r hr))
            rw [if_neg (by rw [hallb]; simp)] at h3
            obtain ⟨rest, hrne, hshape⟩ := cachePath_shape cfg.dataDir year quarter
            have hfs1b : fsExists fs1 (cfg.dataDir ++ S "index" :: rest) = true := by
              rw [← hshape, ← hmp]
              exact hfs1
            have hrun : fsExists RT.2.2 (cfg.dataDir ++ S "index" :: rest) = true := by
              rw [hRT]
              exact runTasks_preserves_index cfg net
                (applyCikFilter cikSet (filter_master_rows rows flt)) man fs1 rest hfs1b
            have hwrite : fsExists (fsWrite RT.2.2 manifestPath)
                (cfg.dataDir ++ S "index" :: rest) = true :=
              fsExists_cons hrun
            rw [← h3, ← hmp]
            refine fsExists_dropLast ?_ ?_
            · rw [hmp, hshape]; simp
            · rw [hmp, hshape]; exact hwrite

/-- C4 counterexample: the datamule-provider cleanup in `download_quarter_tar`
removes the quarter cache directory even when a result has status `error`,
contradicting "if at least one result has status error, that directory still
exists afterwards". -/
theorem C4_counterexample :
    (c4ResultsErr.head?.map (fun r => r.status)) = some (S "error") ∧
    fsExists ([c4CachePath] : List (List Str)) c4CachePath.dropLast = true ∧
    fsExists (datamuleQuarterCleanup (some c4CachePath) c4ResultsErr
      ([c4CachePath] : List (List Str))) c4CachePath.dropLast = false := by
  refine ⟨by decide, by decide, by decide⟩

/-- C4 witness: the amended policy evaluated on two concrete quarter runs of
`FilingDownloader.download_quarter` — the all-success run leaves no
`data/index/master/2024/QTR1` directory, the run with one error keeps it. -/
theorem C4_witness :
    fsExists c4FsOK (master_index_cache_path [S "data"] 2024 1).dropLast = false ∧
    fsExists c4FsErr (master_index_cache_path [S "data"] 2024 1).dropLast = true :=
  ⟨(C4_quarter_cache_policy cfgFiles demoFlt none demoManifestPath qoOK 2024 1
      [] [] c4ResultsOK c4ManOK c4FsOK (by decide)).1 (by decide),
   (C4_quarter_cache_policy cfgFiles demoFlt none demoManifestPath qoBad 2024 1
      [] [] c4ResultsErr [] c4FsErr (by decide)).2 (by decide)⟩

/-! ## Claim C2: the idempotence check -/

theorem manifest_get_upsert_self (m : Manifest) (e : ManifestEntry) :
    Manifest.get (Manifest.upsert m e) e.accession = some e := by
  unfold Manifest.get Manifest.upsert
  rw [List.find?_cons_of_pos _ (by simp)]
  rfl

theorem downloadBody_ok_manifest {cfg : DlConfig} {man : Manifest} {fs : FS}
    {net : NetOracle} {row : MasterIndexRow}
    {outDir tarPath tmpDir tmpTar : List Str} {p : List Str} {m2 : Manifest}
    {f2 : FS} {rq : List Str}
    (h : downloadBody cfg man fs net row outDir tarPath tmpDir tmpTar =
      .ok (p, m2, f2, rq)) :
    (cfg.outputMode = .files ∧
      m2 = man.upsert ⟨row.accession, row.form_type, zfill row.cik 10,
        row.date_filed.iso, S "index"⟩) ∨
    (cfg.outputMode = .tar ∧
      m2 = man.upsert ⟨row.accession, row.form_type, zfill row.cik 10,
        row.date_filed.iso, S "index_tar"⟩) := by
  simp only [downloadBody] at h
  split at h
  · split at h
    · exact Except.noConfusion h
    · split at h
      · exact Except.noConfusion h
      · split at h
        · exact Except.noConfusion h
        · split at h
          · exact Except.noConfusion h
          · split at h
            · rename_i hmode
              simp only [Except.ok.injEq, Prod.mk.injEq] at h
              exact Or.inl ⟨hmode, h.2.1.symm⟩
            · rename_i hmode
              simp only [Except.ok.injEq, Prod.mk.injEq] at h
              exact Or.inr ⟨hmode, h.2.1.symm⟩
  · exact Except.noConfusion h

/-- C2: (a) the skip predicate of `_download_one` holds exactly when the
manifest has an entry for the row's accession whose strategy matches the
output mode and whose final artifact exists; (b) the task reports
`skipped` exactly when the predicate holds; (c) a skipped task makes no
request and leaves manifest and filesystem unchanged; (d) when the
predicate fails and the body succeeds the task reports `downloaded`; (e)
after a successful body run, a run in the other output mode does not skip
(mode-switch refetch).  `Manifest` is modelled from the spec (the module
is absent from the source tree). -/
theorem C2_idempotence (cfg : DlConfig) (man : Manifest) (fs : FS)
    (net : NetOracle) (row : MasterIndexRow) :
    (skipCheck cfg man fs row = true ↔
      ∃ entry, Manifest.get man row.accession = some entry ∧
        ((cfg.outputMode = .files ∧ entry.strategy = S "index" ∧
            fsExists fs (outDirOf cfg row) = true) ∨
         (cfg.outputMode = .tar ∧ entry.strategy = S "index_tar" ∧
            fsExists fs (tarPathOf cfg row) = true))) ∧
    ((downloadOne cfg man fs net row).result.status = S "skipped" ↔
      skipCheck cfg man fs row = true) ∧
    (skipCheck cfg man fs row = true →
      (downloadOne cfg man fs net row).requests = [] ∧
      (downloadOne cfg man fs net row).man = man ∧
      (downloadOne cfg man fs net row).fs = fs) ∧
    (∀ p m2 f2 rq, skipCheck cfg man fs row = false →
      downloadBody cfg man fs net row (outDirOf cfg row) (tarPathOf cfg row)
        (tmpDirOf cfg row) (tmpTarOf cfg row) = .ok (p, m2, f2, rq) →
      (downloadOne cfg man fs net row).result.status = S "downloaded") ∧
    (∀ p m2 f2 rq (cfg2 : DlConfig) (fs2 : FS),
      downloadBody cfg man fs net row (outDirOf cfg row) (tarPathOf cfg row)
        (tmpDirOf cfg row) (tmpTarOf cfg row) = .ok (p, m2, f2, rq) →
      cfg2.outputMode ≠ cfg.outputMode →
      skipCheck cfg2 m2 fs2 row = false) := by
  refine ⟨?_, ?_, ?_, ?_, ?_⟩
  · cases hget : Manifest.get man row.accession with
    | none => simp [skipCheck, hget]
    | some entry =>
        cases hmode : cfg.outputMode with
        | files =>
            simp [skipCheck, hget, hmode, Bool.and_eq_true, beq_iff_eq]
        | tar =>
            simp [skipCheck, hget, hmode, Bool.and_eq_true, beq_iff_eq]
  · constructor
    · intro hst
      by_contra hns
      have hfalse : skipCheck cfg man fs row = false := by
        cases hsc : skipCheck cfg man fs row
        · rfl
        · exact absurd hsc hns
      cases hb : downloadBody cfg man fs net row (outDirOf cfg row)
          (tarPathOf cfg row) (tmpDirOf cfg row) (tmpTarOf cfg row) with
      | ok v =>
          obtain ⟨p, m2, f2, rq⟩ := v
          rw [downloadOne_noskip_ok hfalse hb] at hst
          exact absurd (show S "downloaded" = S "skipped" from hst) (by decide)
      | error v =>
          obtain ⟨e, fsE, rq⟩ := v
          rw [downloadOne_noskip_error hfalse hb] at hst
          exact absurd (show S "error" = S "skipped" from hst) (by decide)
    · intro h
      exact (downloadOne_skip_eq h).1
  · intro h
    obtain ⟨_, h2, h3, h4⟩ := @downloadOne_skip_eq cfg man fs net row h
    exact ⟨h4, h2, h3⟩
  · intro p m2 f2 rq hfalse hb
    rw [downloadOne_noskip_ok hfalse hb]
  · intro p m2 f2 rq cfg2 fs2 hb hne
    rcases downloadBody_ok_manifest hb with ⟨hc, hm2⟩ | ⟨hc, hm2⟩
    · have hc2 : cfg2.outputMode = .tar := by
        cases h2 : cfg2.outputMode
        · exact absurd (h2.trans hc.symm) hne
        · rfl
      have hget : Manifest.get m2 row.accession =
          some ⟨row.accession, row.form_type, zfill row.cik 10,
            row.date_filed.iso, S "index"⟩ := by
        rw [hm2]
        exact manifest_get_upsert_self man _
      simp only [skipCheck, hget, hc2]
      simp [show (S "index" == S "index_tar") = false from by decide]
    · have hc2 : cfg2.outputMode = .files := by
        cases h2 : cfg2.outputMode
        · rfl
        · exact absurd (h2.trans hc.symm) hne
      have hget : Manifest.get m2 row.accession =
          some ⟨row.accession, row.form_type, zfill row.cik 10,
            row.date_filed.iso, S "index_tar"⟩ := by
        rw [hm2]
        exact manifest_get_upsert_self man _
      simp only [skipCheck, hget, hc2]
      simp [show (S "index_tar" == S "index") = false from by decide]

/-- C2 witness: the contract evaluated concretely — a manifest entry with
strategy `index` plus the artifact directory makes the files-mode task
report `skipped` with no requests; from an empty state the task reports
`downloaded`; and the manifest written by the files-mode body does not
make a tar-mode run skip. -/
theorem C2_witness :
    (downloadOne cfgFiles c2Man c2Fs demoNet demoRow).result.status =
      S "skipped" ∧
    (downloadOne cfgFiles c2Man c2Fs demoNet demoRow).requests = [] ∧
    (downloadOne cfgFiles [] [] demoNet demoRow).result.status =
      S "downloaded" ∧
    skipCheck cfgTar c2Man c2Fs demoRow = false :=
  ⟨((C2_idempotence cfgFiles c2Man c2Fs demoNet demoRow).2.1).mpr (by decide),
   ((C2_idempotence cfgFiles c2Man c2Fs demoNet demoRow).2.2.1 (by decide)).1,
   (C2_idempotence cfgFiles [] [] demoNet demoRow).2.2.2.1 c2BodyPath c2Man
     c2BodyFs c2BodyReqs (by decide) (by decide),
   (C2_idempotence cfgFiles [] [] demoNet demoRow).2.2.2.2 c2BodyPath c2Man
     c2BodyFs c2BodyReqs cfgTar c2Fs (by decide) (by decide)⟩

/-! ## Claim C1: the failure path -/

theorem tmpTar_tmpDir_incompat (cfg : DlConfig) (row : MasterIndexRow)
    (r : List Str) :
    isPre (tmpTarOf cfg row) (tmpDirOf cfg row ++ r) = false := by
  obtain ⟨r1, h1⟩ := tmpDirOf_shape cfg row
  obtain ⟨r2, h2⟩ := tmpTarOf_shape cfg row
  rw [h1, h2, List.append_assoc, List.cons_append]
  exact isPre_ne_head cfg.dataDir _ _ r2 (r1 ++ r) (by decide)

theorem cleanupStaging_removes (cfg : DlConfig) (row : MasterIndexRow)
    (fsE : FS)
    (hmem : ∀ q ∈ (fsE : List (List Str)),
      isPre (tmpTarOf cfg row) q = true → q = tmpTarOf cfg row) :
    fsExists (cleanupStaging cfg row fsE) (tmpDirOf cfg row) = false ∧
    fsExists (cleanupStaging cfg row fsE) (tmpTarOf cfg row) = false := by
  unfold cleanupStaging
  set step1 := if fsExists fsE (tmpDirOf cfg row)
    then fsRmtree fsE (tmpDirOf cfg row) else fsE with hstep1
  have hsub1 : ∀ q ∈ (step1 : List (List Str)), q ∈ (fsE : List (List Str)) := by
    intro q hq
    rw [hstep1] at hq
    by_cases hx : fsExists fsE (tmpDirOf cfg row) = true
    · rw [if_pos hx] at hq
      exact (mem_fsRmtree.mp hq).1
    · rw [if_neg hx] at hq
      exact hq
  have hdir1 : fsExists step1 (tmpDirOf cfg row) = false := by
    rw [hstep1]
    by_cases hx : fsExists fsE (tmpDirOf cfg row) = true
    · rw [if_pos hx]
      exact fsExists_rmtree_self fsE (tmpDirOf cfg row)
    · rw [if_neg hx]
      revert hx
      cases fsExists fsE (tmpDirOf cfg row) <;> simp
  constructor
  · by_cases h2 : fsExists step1 (tmpTarOf cfg row) = true
    · rw [if_pos h2]
      cases hx : fsExists (fsUnlink step1 (tmpTarOf cfg row)) (tmpDirOf cfg row) with
      | false => rfl
      | true =>
          exfalso
          rcases fsExists_iff.mp hx with ⟨w, hw, hpre⟩
          have hw1 := (mem_fsUnlink.mp hw).1
          have hcontra : fsExists step1 (tmpDirOf cfg row) = true :=
            fsExists_iff.mpr ⟨w, hw1, hpre⟩
          rw [hdir1] at hcontra
          exact Bool.noConfusion hcontra
    · rw [if_neg h2]
      exact hdir1
  · by_cases h2 : fsExists step1 (tmpTarOf cfg row) = true
    · rw [if_pos h2]
      cases hx : fsExists (fsUnlink step1 (tmpTarOf cfg row)) (tmpTarOf cfg row) with
      | false => rfl
      | true =>
          exfalso
          rcases fsExists_iff.mp hx with ⟨w, hw, hpre⟩
          obtain ⟨hw1, hwne⟩ := mem_fsUnlink.mp hw
          exact hwne (hmem w (hsub1 w hw1) hpre)
    · rw [if_neg h2]
      revert h2
      cases fsExists step1 (tmpTarOf cfg row) <;> simp

/-- C1: when the idempotence check fails and the body of `_download_one`
raises (any of the modelled exception points: URL construction, the JSON
fetch, listing extraction, empty selection, or a file fetch), the task
returns a result with status `error` carrying the exception's message,
the manifest is unchanged, and neither staging path (the `.tmp` directory
and the `.tmp` tar) exists afterwards.  The hypothesis `hclean` states
that the starting filesystem holds no strict descendant of the staging
tar path (the `.tmp` file is a file, never a directory).  `Manifest` is
modelled from the spec (the module is absent from the source tree). -/
theorem C1_failure_path (cfg : DlConfig) (man : Manifest) (fs : FS)
    (net : NetOracle) (row : MasterIndexRow) (e : Str) (fsE : FS)
    (rq : List Str)
    (hclean : ∀ q ∈ (fs : List (List Str)),
      isPre (tmpTarOf cfg row) q = true → q = tmpTarOf cfg row)
    (hskip : skipCheck cfg man fs row = false)
    (hb : downloadBody cfg man fs net row (outDirOf cfg row)
      (tarPathOf cfg row) (tmpDirOf cfg row) (tmpTarOf cfg row) =
      .error (e, fsE, rq)) :
    (downloadOne cfg man fs net row).result.status = S "error" ∧
    (downloadOne cfg man fs net row).result.error = some e ∧
    (downloadOne cfg man fs net row).man = man ∧
    fsExists (downloadOne cfg man fs net row).fs (tmpDirOf cfg row) = false ∧
    fsExists (downloadOne cfg man fs net row).fs (tmpTarOf cfg row) = false := by
  have hmem : ∀ q ∈ (fsE : List (List Str)),
      isPre (tmpTarOf cfg row) q = true → q = tmpTarOf cfg row := by
    intro q hq hpre
    rcases downloadBody_error_mem hb q hq with h1 | h1 | ⟨name, h1⟩
    · exact hclean q h1 hpre
    · exfalso
      have hinc := tmpTar_tmpDir_incompat cfg row []
      rw [List.append_nil] at hinc
      rw [h1, hinc] at hpre
      exact Bool.noConfusion hpre
    · exfalso
      have hinc := tmpTar_tmpDir_incompat cfg row (splitOnChar '/' name)
      rw [h1, show pjoin (tmpDirOf cfg row) name =
        tmpDirOf cfg row ++ splitOnChar '/' name from rfl, hinc] at hpre
      exact Bool.noConfusion hpre
  rw [downloadOne_noskip_error hskip hb]
  obtain ⟨hd, ht⟩ := cleanupStaging_removes cfg row fsE hmem
  exact ⟨rfl, rfl, rfl, hd, ht⟩

/-- C1 witness: the failure path evaluated concretely — a failing JSON
fetch from an empty state yields status `error` with message `boom`, an
unchanged (empty) manifest, and no staging directory or staging tar on
the resulting filesystem. -/
theorem C1_witness :
    (downloadOne cfgFiles [] [] c1NetErr demoRow).result.status = S "error" ∧
    (downloadOne cfgFiles [] [] c1NetErr demoRow).result.error =
      some (S "boom") ∧
    (downloadOne cfgFiles [] [] c1NetErr demoRow).man = [] ∧
    fsExists (downloadOne cfgFiles [] [] c1NetErr demoRow).fs
      (tmpDirOf cfgFiles demoRow) = false ∧
    fsExists (downloadOne cfgFiles [] [] c1NetErr demoRow).fs
      (tmpTarOf cfgFiles demoRow) = false :=
  C1_failure_path cfgFiles [] [] c1NetErr demoRow (S "boom") c1FsE c1Rq
    (by decide) (by decide) (by decide)
